import Mathlib

/-! # Verification of the address-book backend

Shallow embedding of `src/backend/app` (models.py, crud.py, main.py,
database.py) of the address-book-service repository, together with
proofs about its uniqueness-enforcement, update-reconciliation and
query-composition logic.

Modelling conventions:
* The committed SQLite database is a `Store`: the four tables, the
  contact↔tag association table and the autoincrement counters.
* `database.py` configures `autoflush=False` and sessions that close
  (and hence roll back) without committing on any raised error, so every
  crud operation is a pure function from the committed store to either a
  new committed store or an error leaving the store unchanged; lookups
  made inside an operation see only the committed state.
* Character-level operations (`str.lower`, SQL `lower`, `LIKE`) are
  modelled for the ASCII alphabet.
-/

/-- Rows of the `contacts` table (`models.Contact`).  The scalar
`address` column exists but is never populated by any write path. -/
structure ContactRow where
  id : Nat
  name : String
  email : Option String
  phone : Option String
  address : Option String
deriving DecidableEq

/-- Rows of the `phone_numbers` table (`models.PhoneNumber`). -/
structure PhoneRow where
  id : Nat
  contact_id : Nat
  number : String
deriving DecidableEq

/-- Rows of the `addresses` table (`models.Address`). -/
structure AddrRow where
  id : Nat
  contact_id : Nat
  address : String
deriving DecidableEq

/-- Rows of the `tags` table (`models.Tag`). -/
structure TagRow where
  id : Nat
  name : String
deriving DecidableEq

/-- The committed database state. -/
structure Store where
  contacts : List ContactRow
  phones : List PhoneRow
  addrs : List AddrRow
  tags : List TagRow
  assoc : List (Nat × Nat)
  nextContactId : Nat
  nextPhoneId : Nat
  nextAddrId : Nat
  nextTagId : Nat
deriving DecidableEq

/-- The freshly initialised database: empty tables, autoincrement
counters starting at 1. -/
def emptyStore : Store := ⟨[], [], [], [], [], 1, 1, 1, 1⟩

/-- Python truthiness of an optional string (`if x:`): `None` and the
empty string are falsy. -/
def optTruthy : Option String → Bool
  | none => false
  | some s => !(s == "")

/-- ASCII lower-casing of one character (the embedding of Python
`str.lower` and SQL `lower`, restricted to the ASCII alphabet). -/
def lowChar (c : Char) : Char :=
  match c with
  | 'A' => 'a' | 'B' => 'b' | 'C' => 'c' | 'D' => 'd' | 'E' => 'e'
  | 'F' => 'f' | 'G' => 'g' | 'H' => 'h' | 'I' => 'i' | 'J' => 'j'
  | 'K' => 'k' | 'L' => 'l' | 'M' => 'm' | 'N' => 'n' | 'O' => 'o'
  | 'P' => 'p' | 'Q' => 'q' | 'R' => 'r' | 'S' => 's' | 'T' => 't'
  | 'U' => 'u' | 'V' => 'v' | 'W' => 'w' | 'X' => 'x' | 'Y' => 'y'
  | 'Z' => 'z' | _ => c

/-- ASCII lower-casing of a string. -/
def lowStr (s : String) : String := ⟨s.data.map lowChar⟩

/-- SQL `LIKE` matching over character lists: `%` matches any sequence of
characters (some suffix of the text is matched by the rest of the pattern)
and `_` matches exactly one character. -/
def likeMatch : List Char → List Char → Bool
  | [], t => t.isEmpty
  | '%' :: ps, t => t.tails.any fun suf => likeMatch ps suf
  | '_' :: ps, t =>
    match t with
    | [] => false
    | _ :: ts => likeMatch ps ts
  | p :: ps, t =>
    match t with
    | [] => false
    | d :: ts => (p == d) && likeMatch ps ts

/-- `func.lower(col) LIKE '%q%'` for an already lower-cased query `q`:
a NULL column never matches. -/
def colLike (q : String) (col : Option String) : Bool :=
  match col with
  | none => false
  | some v => likeMatch ('%' :: (lowStr q).data ++ ['%']) (lowStr v).data

/-- Plain (wildcard-free) substring test on character lists. -/
def isSubChars (needle : List Char) : List Char → Bool
  | [] => needle.isPrefixOf []
  | t :: ts => needle.isPrefixOf (t :: ts) || isSubChars needle ts

/-- Case-insensitive plain substring containment, the spec's literal
"case-insensitively contains" reading. -/
def containsSub (q v : String) : Bool := isSubChars (lowStr q).data (lowStr v).data

/-- Insert into a list ordered by `le`. -/
def insertLe {α : Type} (le : α → α → Bool) (a : α) : List α → List α
  | [] => [a]
  | b :: bs => if le a b then a :: b :: bs else b :: insertLe le a bs

/-- Insertion sort, the model of the SQL ORDER BY clause. -/
def insSort {α : Type} (le : α → α → Bool) : List α → List α
  | [] => []
  | a :: as => insertLe le a (insSort le as)

/-- Executable pairwise distinctness, the embedding of a SQL UNIQUE
constraint over a column's list of values. -/
def listNodup {α : Type} [BEq α] : List α → Bool
  | [] => true
  | a :: as => !as.contains a && listNodup as

/-- SELECT DISTINCT over contact rows: keep the first occurrence of
each contact id. -/
def dedupAux (seen : List Nat) : List ContactRow → List ContactRow
  | [] => []
  | c :: rest =>
    if seen.contains c.id then dedupAux seen rest
    else c :: dedupAux (c.id :: seen) rest

/-- `schemas.ContactCreate`, with each phone-number / address entry
flattened to its single string field. -/
structure ContactCreate where
  name : String
  email : Option String := none
  phone : Option String := none
  phone_numbers : List String := []
  addresses : List String := []
  tags : List String := []

/-- `schemas.ContactUpdate`: only supplied fields are touched. -/
structure ContactUpdate where
  name : Option String := none
  email : Option String := none
  phone : Option String := none
  phone_numbers : Option (List String) := none
  addresses : Option (List String) := none
  tags : Option (List String) := none

/-- crud-layer failures: the `ValueError` conflicts carrying the
offending value, and storage-constraint violations surfaced when the
transaction commits. -/
inductive CrudError where
  | phoneConflict (value : String)
  | addressConflict (value : String)
  | constraintViolation
deriving DecidableEq

/-- `if exclude_contact_id:` — the exclusion filter is applied only for
a truthy (non-`None`, non-zero) exclude id. -/
def exclKeep (ex : Option Nat) (cid : Nat) : Bool :=
  match ex with
  | none => true
  | some e => e == 0 || !(cid == e)

/-- `crud.check_phone_number_exists`: does the candidate appear as some
contact's scalar `phone` or in some `phone_numbers` row, excluding the
rows of a truthy `exclude_contact_id`?  An empty candidate is never
reported as existing. -/
def check_phone_number_exists (s : Store) (phone_number : String)
    (exclude_contact_id : Option Nat) : Bool :=
  if phone_number == "" then false
  else
    (s.contacts.any fun c =>
      c.phone == some phone_number && exclKeep exclude_contact_id c.id)
    || (s.phones.any fun r =>
      r.number == phone_number && exclKeep exclude_contact_id r.contact_id)

/-- `crud.check_address_exists`, the exact analogue over the scalar
`address` column and the `addresses` table. -/
def check_address_exists (s : Store) (address : String)
    (exclude_contact_id : Option Nat) : Bool :=
  if address == "" then false
  else
    (s.contacts.any fun c =>
      c.address == some address && exclKeep exclude_contact_id c.id)
    || (s.addrs.any fun r =>
      r.address == address && exclKeep exclude_contact_id r.contact_id)

/-- The per-entry validation loops of create/update: raise on the first
entry whose check fires. -/
def checkValues (chk : String → Option Nat → Bool) (mk : String → CrudError)
    (ex : Option Nat) : List String → Except CrudError Unit
  | [] => .ok ()
  | v :: rest => if chk v ex then .error (mk v) else checkValues chk mk ex rest

/-- The `if contact.phone:` scalar-phone validation of create. -/
def checkScalarPhone (s : Store) (po : Option String) : Except CrudError Unit :=
  match po with
  | none => .ok ()
  | some p =>
    if p == "" then .ok ()
    else if check_phone_number_exists s p none then .error (.phoneConflict p)
    else .ok ()

/-- New phone-number rows for one contact, ids from the autoincrement
counter. -/
def mkPhoneRows (start cid : Nat) : List String → List PhoneRow
  | [] => []
  | n :: rest => ⟨start, cid, n⟩ :: mkPhoneRows (start + 1) cid rest

/-- New address rows for one contact. -/
def mkAddrRows (start cid : Nat) : List String → List AddrRow
  | [] => []
  | a :: rest => ⟨start, cid, a⟩ :: mkAddrRows (start + 1) cid rest

/-- Result of resolving a tag-name list: freshly created rows, the
association pairs to insert, and the advanced tag counter. -/
structure TagProc where
  newRows : List TagRow
  pairs : List (Nat × Nat)
  nextId : Nat

/-- Lazy get-or-create of tags.  With `autoflush=False` every lookup
queries only the committed `tags` table: rows pending in the same
operation are invisible, so a repeated fresh name yields two pending
rows. -/
def procTags (committed : List TagRow) (nextId cid : Nat) : List String → TagProc
  | [] => ⟨[], [], nextId⟩
  | n :: rest =>
    match committed.find? (fun t => t.name == lowStr n) with
    | some t =>
      let r := procTags committed nextId cid rest
      ⟨r.newRows, (cid, t.id) :: r.pairs, r.nextId⟩
    | none =>
      let r := procTags committed (nextId + 1) cid rest
      ⟨⟨nextId, lowStr n⟩ :: r.newRows, (cid, nextId) :: r.pairs, r.nextId⟩

/-- The storage-layer UNIQUE constraints checked when the transaction
commits: `phone_numbers.number`, `addresses.address`, `tags.name`, and
the composite primary key of the association table. -/
def storeOk (s : Store) : Bool :=
  listNodup (s.phones.map fun r => r.number) &&
  listNodup (s.addrs.map fun r => r.address) &&
  listNodup (s.tags.map fun t => t.name) &&
  listNodup s.assoc

/-- `db.commit()`: a constraint violation aborts the transaction. -/
def commitStore (s : Store) : Except CrudError Store :=
  if storeOk s then .ok s else .error .constraintViolation

/-- The rows `crud.create_contact` stages in the session after all
validations passed. -/
def buildCreate (s : Store) (c : ContactCreate) : Store :=
  let cid := s.nextContactId
  let newC : ContactRow := ⟨cid, c.name, c.email, c.phone, none⟩
  let t := procTags s.tags s.nextTagId cid c.tags
  { contacts := s.contacts ++ [newC],
    phones := s.phones ++ mkPhoneRows s.nextPhoneId cid c.phone_numbers,
    addrs := s.addrs ++ mkAddrRows s.nextAddrId cid c.addresses,
    tags := s.tags ++ t.newRows,
    assoc := s.assoc ++ t.pairs,
    nextContactId := cid + 1,
    nextPhoneId := s.nextPhoneId + c.phone_numbers.length,
    nextAddrId := s.nextAddrId + c.addresses.length,
    nextTagId := t.nextId }

/-- `crud.create_contact`: validate the scalar phone, every listed
phone number and every listed address against the committed store, then
stage and commit all new rows. -/
def create_contact (s : Store) (c : ContactCreate) : Except CrudError Store :=
  match checkScalarPhone s c.phone with
  | .error e => .error e
  | .ok _ =>
    match checkValues (check_phone_number_exists s) CrudError.phoneConflict none c.phone_numbers with
    | .error e => .error e
    | .ok _ =>
      match checkValues (check_address_exists s) CrudError.addressConflict none c.addresses with
      | .error e => .error e
      | .ok _ => commitStore (buildCreate s c)

/-- `crud.get_contact`: fetch by id, `None` when absent. -/
def get_contact (s : Store) (cid : Nat) : Option ContactRow :=
  s.contacts.find? fun c => c.id == cid

/-- `if contact_update.email is not None` — overwrite only when
supplied. -/
def applyEmail (o : Option String) (old : Option String) : Option String :=
  match o with
  | none => old
  | some e => some e

/-- The scalar-phone step of update: validate excluding the updated
contact, then overwrite. -/
def updScalar (s : Store) (cid : Nat) (c1 : ContactRow) (po : Option String) :
    Except CrudError ContactRow :=
  match po with
  | none => .ok c1
  | some p =>
    if check_phone_number_exists s p (some cid) then .error (.phoneConflict p)
    else .ok { c1 with phone := some p }

/-- The phone-number replacement step of update: validate every entry
(excluding the updated contact) before deleting the old rows, then
replace the whole set. -/
def updPhones (s : Store) (cid : Nat) : Option (List String) →
    Except CrudError (List PhoneRow × Nat)
  | none => .ok (s.phones, s.nextPhoneId)
  | some ns =>
    match checkValues (check_phone_number_exists s) CrudError.phoneConflict (some cid) ns with
    | .error e => .error e
    | .ok _ =>
      .ok ((s.phones.filter fun r => !(r.contact_id == cid)) ++ mkPhoneRows s.nextPhoneId cid ns,
        s.nextPhoneId + ns.length)

/-- The address replacement step of update. -/
def updAddrs (s : Store) (cid : Nat) : Option (List String) →
    Except CrudError (List AddrRow × Nat)
  | none => .ok (s.addrs, s.nextAddrId)
  | some xs =>
    match checkValues (check_address_exists s) CrudError.addressConflict (some cid) xs with
    | .error e => .error e
    | .ok _ =>
      .ok ((s.addrs.filter fun r => !(r.contact_id == cid)) ++ mkAddrRows s.nextAddrId cid xs,
        s.nextAddrId + xs.length)

/-- The tag step of update: clear the contact's associations and
re-resolve every supplied name. -/
def updTags (s : Store) (cid : Nat) : Option (List String) →
    List TagRow × List (Nat × Nat) × Nat
  | none => (s.tags, s.assoc, s.nextTagId)
  | some tns =>
    let r := procTags s.tags s.nextTagId cid tns
    (s.tags ++ r.newRows, (s.assoc.filter fun pr => !(pr.1 == cid)) ++ r.pairs, r.nextId)

/-- `crud.update_contact`: `None` for a missing id; otherwise patch the
supplied fields with validate-before-delete replacement of the child
collections, and commit. -/
def update_contact (s : Store) (cid : Nat) (u : ContactUpdate) :
    Except CrudError (Option Store) :=
  match s.contacts.find? (fun c => c.id == cid) with
  | none => .ok none
  | some c0 =>
    match updScalar s cid
        { c0 with name := u.name.getD c0.name, email := applyEmail u.email c0.email }
        u.phone with
    | .error e => .error e
    | .ok c2 =>
      match updPhones s cid u.phone_numbers with
      | .error e => .error e
      | .ok (phones', nextPhone') =>
        match updAddrs s cid u.addresses with
        | .error e => .error e
        | .ok (addrs', nextAddr') =>
          match commitStore
              { contacts := s.contacts.map fun c => if c.id == cid then c2 else c,
                phones := phones', addrs := addrs',
                tags := (updTags s cid u.tags).1,
                assoc := (updTags s cid u.tags).2.1,
                nextContactId := s.nextContactId, nextPhoneId := nextPhone',
                nextAddrId := nextAddr', nextTagId := (updTags s cid u.tags).2.2 } with
          | .error e => .error e
          | .ok s' => .ok (some s')

/-- `crud.delete_contact`: `False` and no change for a missing id;
otherwise remove the contact, cascade to its phone-number and address
rows, detach (only) its tag associations, and report `True`. -/
def delete_contact (s : Store) (cid : Nat) : Bool × Store :=
  match s.contacts.find? (fun c => c.id == cid) with
  | none => (false, s)
  | some _ =>
    (true,
      { s with
        contacts := s.contacts.filter fun c => !(c.id == cid),
        phones := s.phones.filter fun r => !(r.contact_id == cid),
        addrs := s.addrs.filter fun r => !(r.contact_id == cid),
        assoc := s.assoc.filter fun pr => !(pr.1 == cid) })

/-- The sortable column attributes of `models.Contact`. -/
inductive SortCol where
  | id
  | name
  | email
  | phone
  | address
deriving DecidableEq

/-- `getattr(models.Contact, sort_by, models.Contact.name)` restricted
to the column attributes of `Contact`; non-column attributes
(relationships such as `tags`, or Python dunder attributes) make the
query construction raise and are outside this model. -/
def resolveSortCol (sb : String) : SortCol :=
  if sb == "id" then .id
  else if sb == "name" then .name
  else if sb == "email" then .email
  else if sb == "phone" then .phone
  else if sb == "address" then .address
  else .name

/-- Code-point lexicographic comparison of character lists, the SQLite
binary collation used by ORDER BY on text columns. -/
def charsLe : List Char → List Char → Bool
  | [], _ => true
  | _ :: _, [] => false
  | a :: as, b :: bs =>
    if a.toNat < b.toNat then true
    else if b.toNat < a.toNat then false
    else charsLe as bs

/-- String order used by ORDER BY. -/
def strLe (a b : String) : Bool := charsLe a.data b.data

/-- ORDER BY on a nullable column: NULL sorts before every value
(ascending), as in SQLite. -/
def optStrLe : Option String → Option String → Bool
  | none, _ => true
  | some _, none => false
  | some a, some b => strLe a b

/-- Ascending comparison of two contact rows on one column. -/
def colLeAsc (col : SortCol) (a b : ContactRow) : Bool :=
  match col with
  | .id => decide (a.id ≤ b.id)
  | .name => strLe a.name b.name
  | .email => optStrLe a.email b.email
  | .phone => optStrLe a.phone b.phone
  | .address => optStrLe a.address b.address

/-- The full ORDER BY comparison: resolved column, `desc` reverses. -/
def contactLe (sb so : String) (a b : ContactRow) : Bool :=
  if so == "desc" then colLeAsc (resolveSortCol sb) b a
  else colLeAsc (resolveSortCol sb) a b

/-- `crud.get_contacts`: the requested page of the sorted contact list,
plus the total count of the unpaginated query. -/
def get_contacts (s : Store) (skip limit : Nat) (sort_by sort_order : String) :
    List ContactRow × Nat :=
  let sorted := insSort (contactLe sort_by sort_order) s.contacts
  ((sorted.drop skip).take limit, s.contacts.length)

/-- Tag rows associated to one contact (the join through the
association table). -/
def tagsOf (s : Store) (cid : Nat) : List TagRow :=
  (s.assoc.filter fun pr => pr.1 == cid).filterMap fun pr =>
    s.tags.find? fun t => t.id == pr.2

/-- The LEFT OUTER JOIN of one contact against its phone-number rows: a
contact without rows contributes a single row with a NULL phone
number. -/
def rowsForContact (s : Store) (c : ContactRow) : List (Option PhoneRow) :=
  match s.phones.filter (fun r => r.contact_id == c.id) with
  | [] => [none]
  | rs => rs.map some

/-- The OR of the four LIKE conditions of the substring filter for one
joined row. -/
def substrKeep (q : String) (c : ContactRow) (pr : Option PhoneRow) : Bool :=
  colLike q (some c.name) || colLike q c.email || colLike q c.phone ||
    colLike q (pr.map fun r => r.number)

/-- The substring stage of `crud.search_contacts`: a truthy query outer
joins the phone rows (grouped per contact, in contact order) and keeps
the rows passing the OR filter; otherwise the plain contact list. -/
def searchJoinQ (s : Store) (q : Option String) : List ContactRow :=
  if optTruthy q then
    s.contacts.flatMap fun c =>
      ((rowsForContact s c).filter (substrKeep (q.getD "") c)).map fun _ => c
  else s.contacts

/-- `func.lower(tag_alias.name) == tag.lower()`. -/
def tagNameMatches (filterTag : String) (t : TagRow) : Bool :=
  lowStr t.name == lowStr filterTag

/-- The tag stage of `crud.search_contacts`: a truthy tag filter inner
joins each surviving row against the contact's matching tags. -/
def searchJoinT (s : Store) (tg : Option String) (rows : List ContactRow) :
    List ContactRow :=
  if optTruthy tg then
    rows.flatMap fun c =>
      ((tagsOf s c.id).filter (tagNameMatches (tg.getD ""))).map fun _ => c
  else rows

/-- The full ordered, DISTINCT search result sequence (before
OFFSET/LIMIT). -/
def search_all (s : Store) (q tg : Option String) (sort_by sort_order : String) :
    List ContactRow :=
  insSort (contactLe sort_by sort_order) (dedupAux [] (searchJoinT s tg (searchJoinQ s q)))

/-- `crud.search_contacts`: the requested page of the search sequence
plus the count of the whole DISTINCT query. -/
def search_contacts (s : Store) (q tg : Option String) (skip limit : Nat)
    (sort_by sort_order : String) : List ContactRow × Nat :=
  let all := search_all s q tg sort_by sort_order
  ((all.drop skip).take limit, all.length)

/-- The page envelope returned by the list and search endpoints of
`main.py`. -/
structure PageResult where
  contacts : List ContactRow
  total : Nat
  page : Nat
  page_size : Nat
  total_pages : Nat
deriving DecidableEq

/-- `main.list_contacts`: translate one-based page numbers into an
offset and report `total_pages = (total + page_size - 1) // page_size`. -/
def list_contacts (s : Store) (page page_size : Nat) (sort_by sort_order : String) :
    PageResult :=
  let skip := (page - 1) * page_size
  let r := get_contacts s skip page_size sort_by sort_order
  ⟨r.1, r.2, page, page_size, (r.2 + page_size - 1) / page_size⟩

/-- `main.search_contacts`, the search endpoint with the same
pagination contract as the list endpoint. -/
def search_endpoint (s : Store) (q tg : Option String) (page page_size : Nat)
    (sort_by sort_order : String) : PageResult :=
  let skip := (page - 1) * page_size
  let r := search_contacts s q tg skip page_size sort_by sort_order
  ⟨r.1, r.2, page, page_size, (r.2 + page_size - 1) / page_size⟩

/-- One mutating API call. -/
inductive Op where
  | create (c : ContactCreate)
  | update (cid : Nat) (u : ContactUpdate)
  | delete (cid : Nat)

/-- Run one call against the committed store: a failed operation is
rolled back when the session closes, leaving the committed store
unchanged. -/
def runOp (s : Store) : Op → Store
  | .create c =>
    match create_contact s c with
    | .ok s' => s'
    | .error _ => s
  | .update cid u =>
    match update_contact s cid u with
    | .ok (some s') => s'
    | _ => s
  | .delete cid => (delete_contact s cid).2

/-- Run a sequence of calls from a starting store. -/
def runOps (s : Store) (ops : List Op) : Store := ops.foldl runOp s

/-- Number of contacts whose scalar phone equals `p`. -/
def scalarPhoneCount (s : Store) (p : String) : Nat :=
  s.contacts.countP fun c => c.phone == some p

/-- Number of phone-number rows whose value equals `p`. -/
def phoneRowCount (s : Store) (p : String) : Nat :=
  s.phones.countP fun r => r.number == p

/-- The per-contact search predicate as the spec states it, with the
query interpreted as the code does (LIKE, truthy filters). -/
def matchesSearchB (s : Store) (q tg : Option String) (c : ContactRow) : Bool :=
  (!optTruthy q ||
    (colLike (q.getD "") (some c.name) || colLike (q.getD "") c.email ||
      colLike (q.getD "") c.phone ||
      s.phones.any fun r => r.contact_id == c.id && colLike (q.getD "") (some r.number))) &&
  (!optTruthy tg || (tagsOf s c.id).any (tagNameMatches (tg.getD "")))

/-- The claim's literal reading of the Uniqueness Validator, for
comparison: the exclusion is applied for every supplied
excludeContactId, zero included. -/
def checkPhoneSpecC4 (s : Store) (phone_number : String)
    (exclude_contact_id : Option Nat) : Bool :=
  if phone_number == "" then false
  else
    (s.contacts.any fun c =>
      c.phone == some phone_number &&
        (match exclude_contact_id with | none => true | some e => !(c.id == e)))
    || (s.phones.any fun r =>
      r.number == phone_number &&
        (match exclude_contact_id with | none => true | some e => !(r.contact_id == e)))

/-- Number of joined rows the substring stage keeps for one contact
(1 meaning "kept once" when the filter is off). -/
def qCount (s : Store) (q : Option String) (c : ContactRow) : Nat :=
  if optTruthy q then ((rowsForContact s c).filter (substrKeep (q.getD "") c)).length
  else 1

/-- Number of joined rows the tag stage keeps for one contact. -/
def tCount (s : Store) (tg : Option String) (c : ContactRow) : Nat :=
  if optTruthy tg then ((tagsOf s c.id).filter (tagNameMatches (tg.getD ""))).length
  else 1

/-- Multiplicity of one contact in the joined search row set before
SELECT DISTINCT. -/
def mCount (s : Store) (q tg : Option String) (c : ContactRow) : Nat :=
  qCount s q c * tCount s tg c

/-- Store well-formedness maintained by every committed operation: the
storage constraints hold, contact ids are unique, positive and below
the autoincrement counter, every non-empty phone value is the scalar
phone of at most one contact, and whenever a contact's scalar phone
equals a phone-number row's value, that row belongs to that contact. -/
def StoreInv (s : Store) : Prop :=
  storeOk s = true ∧
  (s.contacts.map fun c => c.id).Nodup ∧
  (∀ c ∈ s.contacts, c.id ≠ 0 ∧ c.id < s.nextContactId) ∧
  1 ≤ s.nextContactId ∧
  (∀ p : String, p ≠ "" → scalarPhoneCount s p ≤ 1) ∧
  (∀ p : String, p ≠ "" → ∀ c ∈ s.contacts, c.phone = some p →
    ∀ r ∈ s.phones, r.number = p → r.contact_id = c.id)

/-- Every committed tag name is stored lower-cased. -/
def TagsLowered (s : Store) : Prop := ∀ t ∈ s.tags, lowStr t.name = t.name

/-! ## Generic lemmas about the helper functions -/

theorem listNodup_iff {α : Type} [BEq α] [LawfulBEq α] (l : List α) :
    listNodup l = true ↔ l.Nodup := by
  induction l with
  | nil => simp [listNodup]
  | cons a as ih =>
    simp [listNodup, List.nodup_cons, ih, List.elem_iff]

theorem mem_insertLe {α : Type} (le : α → α → Bool) (a x : α) (l : List α) :
    x ∈ insertLe le a l ↔ x = a ∨ x ∈ l := by
  induction l with
  | nil => simp [insertLe]
  | cons b bs ih =>
    by_cases h : le a b = true
    · simp only [insertLe, h, ite_true, List.mem_cons]
    · simp only [insertLe, h, Bool.false_eq_true, not_false_iff, ite_false,
        List.mem_cons, ih]
      tauto

theorem count_insertLe {α : Type} [BEq α] (le : α → α → Bool) (a x : α) (l : List α) :
    (insertLe le a l).count x = (a :: l).count x := by
  induction l with
  | nil => simp [insertLe]
  | cons b bs ih =>
    by_cases h : le a b = true
    · simp [insertLe, h]
    · simp only [insertLe, h, if_neg, Bool.false_eq_true, not_false_iff, ite_false]
      rw [List.count_cons, ih]
      simp [List.count_cons]
      omega

theorem count_insSort {α : Type} [BEq α] (le : α → α → Bool) (x : α) (l : List α) :
    (insSort le l).count x = l.count x := by
  induction l with
  | nil => rfl
  | cons a as ih =>
    rw [insSort, count_insertLe, List.count_cons, List.count_cons, ih]

theorem length_insertLe {α : Type} (le : α → α → Bool) (a : α) (l : List α) :
    (insertLe le a l).length = l.length + 1 := by
  induction l with
  | nil => rfl
  | cons b bs ih =>
    by_cases h : le a b = true
    · simp [insertLe, h]
    · simp [insertLe, h, ih]

theorem length_insSort {α : Type} (le : α → α → Bool) (l : List α) :
    (insSort le l).length = l.length := by
  induction l with
  | nil => rfl
  | cons a as ih => rw [insSort, length_insertLe, ih, List.length_cons]

theorem pairwise_insertLe {α : Type} (le : α → α → Bool)
    (total : ∀ a b, le a b = true ∨ le b a = true)
    (tr : ∀ a b c, le a b = true → le b c = true → le a c = true)
    (a : α) (l : List α) (h : l.Pairwise (fun x y => le x y = true)) :
    (insertLe le a l).Pairwise (fun x y => le x y = true) := by
  induction l with
  | nil => simp [insertLe]
  | cons b bs ih =>
    rcases List.pairwise_cons.mp h with ⟨hb, hbs⟩
    by_cases hab : le a b = true
    · simp only [insertLe, hab, ite_true]
      refine List.pairwise_cons.mpr ⟨?_, h⟩
      intro y hy
      rcases List.mem_cons.mp hy with hy | hy
      · subst hy; exact hab
      · exact tr a b y hab (hb y hy)
    · simp only [insertLe, hab, Bool.false_eq_true, not_false_iff, ite_false]
      refine List.pairwise_cons.mpr ⟨?_, ih hbs⟩
      intro y hy
      rcases (mem_insertLe le a y bs).mp hy with hy | hy
      · rcases total a b with hc | hc
        · exact absurd hc hab
        · rw [hy]; exact hc
      · exact hb y hy

theorem pairwise_insSort {α : Type} (le : α → α → Bool)
    (total : ∀ a b, le a b = true ∨ le b a = true)
    (tr : ∀ a b c, le a b = true → le b c = true → le a c = true)
    (l : List α) :
    (insSort le l).Pairwise (fun x y => le x y = true) := by
  induction l with
  | nil => simp [insSort]
  | cons a as ih => exact pairwise_insertLe le total tr a _ ih

theorem mem_insSort {α : Type} (le : α → α → Bool) (x : α) (l : List α) :
    x ∈ insSort le l ↔ x ∈ l := by
  induction l with
  | nil => simp [insSort]
  | cons a as ih =>
    rw [insSort, mem_insertLe]
    simp [ih]

theorem checkValues_ok_iff (chk : String → Option Nat → Bool) (mk : String → CrudError)
    (ex : Option Nat) (vs : List String) :
    checkValues chk mk ex vs = .ok () ↔ ∀ v ∈ vs, chk v ex = false := by
  induction vs with
  | nil => simp [checkValues]
  | cons v rest ih =>
    by_cases h : chk v ex = true
    · simp [checkValues, h]
    · rw [Bool.not_eq_true] at h
      simp [checkValues, h, ih]

theorem checkValues_error_of_mem (chk : String → Option Nat → Bool) (mk : String → CrudError)
    (ex : Option Nat) (vs : List String) (h : ∃ v ∈ vs, chk v ex = true) :
    ∃ w, chk w ex = true ∧ checkValues chk mk ex vs = .error (mk w) := by
  induction vs with
  | nil => simp at h
  | cons v rest ih =>
    by_cases hv : chk v ex = true
    · exact ⟨v, hv, by simp [checkValues, hv]⟩
    · rw [Bool.not_eq_true] at hv
      rcases h with ⟨w, hw, hcw⟩
      rcases List.mem_cons.mp hw with hw | hw
      · subst hw; rw [hcw] at hv; cases hv
      · rcases ih ⟨w, hw, hcw⟩ with ⟨w', hw', heq⟩
        exact ⟨w', hw', by simp [checkValues, hv, heq]⟩

theorem exclKeep_zero (cid : Nat) : exclKeep (some 0) cid = true := rfl

theorem exclKeep_none (cid : Nat) : exclKeep none cid = true := rfl

theorem exclKeep_some_ne {e : Nat} (he : e ≠ 0) (cid : Nat) :
    exclKeep (some e) cid = !(cid == e) := by
  simp [exclKeep, he]

theorem lowChar_idem (c : Char) : lowChar (lowChar c) = lowChar c := by
  by_cases h : c ∈ ['A', 'B', 'C', 'D', 'E', 'F', 'G', 'H', 'I', 'J', 'K', 'L',
      'M', 'N', 'O', 'P', 'Q', 'R', 'S', 'T', 'U', 'V', 'W', 'X', 'Y', 'Z']
  · fin_cases h <;> decide
  · have hc : lowChar c = c := by
      unfold lowChar
      split <;> simp_all
    rw [hc]
    exact hc

theorem lowStr_idem (s : String) : lowStr (lowStr s) = lowStr s := by
  simp [lowStr, List.map_map, Function.comp_def, lowChar_idem]

theorem charsLe_total : ∀ xs ys : List Char, charsLe xs ys = true ∨ charsLe ys xs = true := by
  intro xs
  induction xs with
  | nil => intro ys; exact Or.inl rfl
  | cons a as ih =>
    intro ys
    cases ys with
    | nil => exact Or.inr rfl
    | cons b bs =>
      simp only [charsLe]
      rcases Nat.lt_trichotomy a.toNat b.toNat with h | h | h
      · simp [h]
      · have h1 : ¬ a.toNat < b.toNat := by omega
        have h2 : ¬ b.toNat < a.toNat := by omega
        simp only [h1, h2, ite_false]
        exact ih bs
      · simp [h, Nat.lt_asymm h]

theorem charsLe_trans : ∀ {xs ys zs : List Char}, charsLe xs ys = true →
    charsLe ys zs = true → charsLe xs zs = true := by
  intro xs
  induction xs with
  | nil => intro ys zs _ _; rfl
  | cons a as ih =>
    intro ys zs h1 h2
    cases ys with
    | nil => exact absurd h1 (by simp [charsLe])
    | cons b bs =>
      cases zs with
      | nil => exact absurd h2 (by simp [charsLe])
      | cons c cs =>
        simp only [charsLe] at h1 h2 ⊢
        by_cases hab : a.toNat < b.toNat
        · by_cases hbc : b.toNat < c.toNat
          · rw [if_pos (show a.toNat < c.toNat by omega)]
          · rw [if_neg hbc] at h2
            by_cases hcb : c.toNat < b.toNat
            · rw [if_pos hcb] at h2
              exact Bool.noConfusion h2
            · rw [if_pos (show a.toNat < c.toNat by omega)]
        · rw [if_neg hab] at h1
          by_cases hba : b.toNat < a.toNat
          · rw [if_pos hba] at h1
            exact Bool.noConfusion h1
          · rw [if_neg hba] at h1
            by_cases hbc : b.toNat < c.toNat
            · rw [if_pos (show a.toNat < c.toNat by omega)]
            · rw [if_neg hbc] at h2
              by_cases hcb : c.toNat < b.toNat
              · rw [if_pos hcb] at h2
                exact Bool.noConfusion h2
              · rw [if_neg hcb] at h2
                rw [if_neg (show ¬ a.toNat < c.toNat by omega),
                  if_neg (show ¬ c.toNat < a.toNat by omega)]
                exact ih h1 h2

theorem strLe_total (a b : String) : strLe a b = true ∨ strLe b a = true :=
  charsLe_total a.data b.data

theorem strLe_trans {a b c : String} (h1 : strLe a b = true) (h2 : strLe b c = true) :
    strLe a c = true :=
  charsLe_trans h1 h2

theorem optStrLe_total (x y : Option String) :
    optStrLe x y = true ∨ optStrLe y x = true := by
  match x, y with
  | none, _ => left; rfl
  | some _, none => right; rfl
  | some a, some b => exact strLe_total a b

theorem optStrLe_trans {x y z : Option String} (h1 : optStrLe x y = true)
    (h2 : optStrLe y z = true) : optStrLe x z = true := by
  match x, y, z with
  | none, _, _ => rfl
  | some _, none, _ => exact absurd h1 (by simp [optStrLe])
  | some _, some _, none => exact absurd h2 (by simp [optStrLe])
  | some a, some b, some c => exact strLe_trans h1 h2

theorem colLeAsc_total (col : SortCol) (a b : ContactRow) :
    colLeAsc col a b = true ∨ colLeAsc col b a = true := by
  cases col with
  | id =>
    rcases Nat.le_total a.id b.id with h | h
    · left; exact decide_eq_true h
    · right; exact decide_eq_true h
  | name => exact strLe_total a.name b.name
  | email => exact optStrLe_total a.email b.email
  | phone => exact optStrLe_total a.phone b.phone
  | address => exact optStrLe_total a.address b.address

theorem colLeAsc_trans (col : SortCol) {a b c : ContactRow}
    (h1 : colLeAsc col a b = true) (h2 : colLeAsc col b c = true) :
    colLeAsc col a c = true := by
  cases col with
  | id =>
    exact decide_eq_true (Nat.le_trans (of_decide_eq_true h1) (of_decide_eq_true h2))
  | name => exact strLe_trans h1 h2
  | email => exact optStrLe_trans h1 h2
  | phone => exact optStrLe_trans h1 h2
  | address => exact optStrLe_trans h1 h2

theorem contactLe_total (sb so : String) (a b : ContactRow) :
    contactLe sb so a b = true ∨ contactLe sb so b a = true := by
  unfold contactLe
  by_cases h : (so == "desc") = true
  · simp only [h, ite_true]
    exact (colLeAsc_total (resolveSortCol sb) b a)
  · simp only [h, Bool.false_eq_true, not_false_iff, ite_false]
    exact colLeAsc_total (resolveSortCol sb) a b

theorem contactLe_trans (sb so : String) {a b c : ContactRow}
    (h1 : contactLe sb so a b = true) (h2 : contactLe sb so b c = true) :
    contactLe sb so a c = true := by
  unfold contactLe at *
  by_cases h : (so == "desc") = true
  · simp only [h, ite_true] at *
    exact colLeAsc_trans (resolveSortCol sb) h2 h1
  · simp only [h, Bool.false_eq_true, not_false_iff, ite_false] at *
    exact colLeAsc_trans (resolveSortCol sb) h1 h2

theorem check_phone_iff (s : Store) (p : String) (ex : Option Nat) :
    check_phone_number_exists s p ex = true ↔
      p ≠ "" ∧
        ((∃ c ∈ s.contacts, c.phone = some p ∧ exclKeep ex c.id = true) ∨
          (∃ r ∈ s.phones, r.number = p ∧ exclKeep ex r.contact_id = true)) := by
  unfold check_phone_number_exists
  by_cases hp : p = ""
  · simp [hp]
  · simp only [beq_iff_eq, hp, ite_false, Bool.or_eq_true, List.any_eq_true,
      Bool.and_eq_true, ne_eq, not_false_iff, true_and]

theorem check_address_iff (s : Store) (p : String) (ex : Option Nat) :
    check_address_exists s p ex = true ↔
      p ≠ "" ∧
        ((∃ c ∈ s.contacts, c.address = some p ∧ exclKeep ex c.id = true) ∨
          (∃ r ∈ s.addrs, r.address = p ∧ exclKeep ex r.contact_id = true)) := by
  unfold check_address_exists
  by_cases hp : p = ""
  · simp [hp]
  · simp only [beq_iff_eq, hp, ite_false, Bool.or_eq_true, List.any_eq_true,
      Bool.and_eq_true, ne_eq, not_false_iff, true_and]

theorem check_phone_false {s : Store} {p : String} {ex : Option Nat}
    (hp : p ≠ "") (h : check_phone_number_exists s p ex = false) :
    (∀ c ∈ s.contacts, c.phone = some p → exclKeep ex c.id = false) ∧
    (∀ r ∈ s.phones, r.number = p → exclKeep ex r.contact_id = false) := by
  rw [← Bool.not_eq_true, check_phone_iff] at h
  push_neg at h
  constructor
  · intro c hc hcp
    rw [← Bool.not_eq_true]
    intro hk
    exact ((h hp).1 c hc hcp) hk
  · intro r hr hrp
    rw [← Bool.not_eq_true]
    intro hk
    exact ((h hp).2 r hr hrp) hk

/-! ## The search pipeline as a per-contact filter -/

theorem dedupAux_replicate_mem {c : ContactRow} {seen : List Nat}
    (hc : seen.contains c.id = true) (n : Nat) (t : List ContactRow) :
    dedupAux seen (List.replicate n c ++ t) = dedupAux seen t := by
  induction n with
  | zero => rfl
  | succ n ih =>
    rw [List.replicate_succ, List.cons_append, dedupAux, if_pos hc]
    exact ih

theorem dedupAux_replicate_new {c : ContactRow} {seen : List Nat}
    (hc : seen.contains c.id = false) {n : Nat} (hn : 0 < n) (t : List ContactRow) :
    dedupAux seen (List.replicate n c ++ t) = c :: dedupAux (c.id :: seen) t := by
  cases n with
  | zero => exact absurd hn (by simp)
  | succ n =>
    rw [List.replicate_succ, List.cons_append, dedupAux,
      if_neg (by rw [hc]; simp)]
    congr 1
    exact dedupAux_replicate_mem (by rw [List.contains_cons]; simp) n t

theorem dedupAux_flatMap_replicate (m : ContactRow → Nat) :
    ∀ (l : List ContactRow) (seen : List Nat), (l.map (fun c => c.id)).Nodup →
      dedupAux seen (l.flatMap fun c => List.replicate (m c) c) =
        l.filter fun c => decide (0 < m c) && !(seen.contains c.id) := by
  intro l
  induction l with
  | nil => intro seen _; rfl
  | cons c t ih =>
    intro seen hids
    rw [List.map_cons, List.nodup_cons] at hids
    have htail : ∀ d ∈ t, ¬(d.id = c.id) := by
      intro d hd hdc
      exact hids.1 (hdc ▸ List.mem_map_of_mem (fun x => x.id) hd)
    rw [List.flatMap_cons, List.filter_cons]
    by_cases hm : 0 < m c
    · by_cases hseen : seen.contains c.id = true
      · rw [dedupAux_replicate_mem hseen, ih seen hids.2,
          if_neg (by rw [hseen]; simp)]
      · rw [Bool.not_eq_true] at hseen
        rw [dedupAux_replicate_new hseen hm, ih (c.id :: seen) hids.2,
          if_pos (by rw [hseen]; simp [hm])]
        congr 1
        refine List.filter_congr ?_
        intro d hd
        have hco : ((c.id :: seen).contains d.id) = (seen.contains d.id) := by
          rw [List.contains_cons]
          simp [htail d hd]
        rw [hco]
    · have hm0 : m c = 0 := Nat.eq_zero_of_not_pos hm
      rw [hm0]
      simp only [List.replicate_zero, List.nil_append]
      rw [ih seen hids.2, if_neg (by simp [hm0])]

theorem searchJoinQ_eq (s : Store) (q : Option String) :
    searchJoinQ s q = s.contacts.flatMap fun c => List.replicate (qCount s q c) c := by
  unfold searchJoinQ qCount
  by_cases h : optTruthy q = true
  · simp only [h, ite_true]
    refine List.flatMap_congr ?_
    intro c _
    exact List.map_const' _ c
  · rw [Bool.not_eq_true] at h
    simp [h]

theorem join_replicate (n k : Nat) (c : ContactRow) :
    (List.replicate n c).flatMap (fun _ => List.replicate k c) =
      List.replicate (n * k) c := by
  induction n with
  | zero => simp
  | succ n ih =>
    rw [List.replicate_succ, List.flatMap_cons, ih, Nat.succ_mul, Nat.add_comm,
      List.replicate_add]

theorem searchJoinT_eq (s : Store) (q tg : Option String) :
    searchJoinT s tg (searchJoinQ s q) =
      s.contacts.flatMap fun c => List.replicate (mCount s q tg c) c := by
  rw [searchJoinQ_eq]
  unfold searchJoinT
  by_cases h : optTruthy tg = true
  · simp only [h, ite_true]
    rw [List.flatMap_assoc]
    refine List.flatMap_congr ?_
    intro c _
    have hmap : ∀ c' ∈ List.replicate (qCount s q c) c,
        ((tagsOf s c'.id).filter (tagNameMatches (tg.getD ""))).map (fun _ => c') =
          List.replicate (tCount s tg c) c := by
      intro c' hc'
      rw [List.eq_of_mem_replicate hc', List.map_const']
      unfold tCount
      rw [if_pos h]
    rw [List.flatMap_congr hmap, join_replicate]
    rfl
  · rw [Bool.not_eq_true] at h
    simp only [h, Bool.false_eq_true, not_false_iff, ite_false]
    refine List.flatMap_congr ?_
    intro c _
    unfold mCount tCount
    rw [h]
    simp

theorem rowsForContact_eq_nil {s : Store} {c : ContactRow}
    (h : s.phones.filter (fun r => r.contact_id == c.id) = []) :
    rowsForContact s c = [none] := by
  unfold rowsForContact
  rw [h]

theorem rowsForContact_eq_cons {s : Store} {c : ContactRow} {r0 : PhoneRow}
    {rs : List PhoneRow}
    (h : s.phones.filter (fun r => r.contact_id == c.id) = r0 :: rs) :
    rowsForContact s c = (r0 :: rs).map some := by
  unfold rowsForContact
  rw [h]

theorem rowsFor_exists_iff (s : Store) (c : ContactRow) (q : String) :
    (∃ pr ∈ rowsForContact s c, substrKeep q c pr = true) ↔
      (colLike q (some c.name) = true ∨ colLike q c.email = true ∨
        colLike q c.phone = true ∨
        ∃ r ∈ s.phones, r.contact_id = c.id ∧ colLike q (some r.number) = true) := by
  rcases hf : s.phones.filter (fun r => r.contact_id == c.id) with _ | ⟨r0, rs⟩
  · rw [rowsForContact_eq_nil hf]
    have hnone : ∀ r ∈ s.phones, r.contact_id = c.id → False := by
      intro r hr hc'
      have hmem : r ∈ s.phones.filter (fun r => r.contact_id == c.id) :=
        List.mem_filter.mpr ⟨hr, by simp [hc']⟩
      rw [hf] at hmem
      exact absurd hmem (List.not_mem_nil r)
    constructor
    · rintro ⟨pr, hpr, hk⟩
      rw [List.mem_singleton] at hpr
      subst hpr
      unfold substrKeep at hk
      rw [Option.map_none'] at hk
      have hcl : colLike q none = false := rfl
      rw [hcl] at hk
      simp only [Bool.or_eq_true, Bool.or_false] at hk
      tauto
    · intro hk
      refine ⟨none, List.mem_singleton.mpr rfl, ?_⟩
      unfold substrKeep
      rw [Option.map_none']
      rcases hk with h | h | h | ⟨r, hr, hc', _⟩
      · simp [h]
      · simp [h]
      · simp [h]
      · exact absurd hc' (fun hx => hnone r hr hx)
  · rw [rowsForContact_eq_cons hf]
    have hmem : ∀ r, r ∈ r0 :: rs ↔ (r ∈ s.phones ∧ r.contact_id = c.id) := by
      intro r
      rw [← hf, List.mem_filter]
      simp
    constructor
    · rintro ⟨pr, hpr, hk⟩
      rw [List.mem_map] at hpr
      rcases hpr with ⟨r, hr, rfl⟩
      unfold substrKeep at hk
      rw [Option.map_some'] at hk
      by_cases ha : colLike q (some c.name) = true
      · exact Or.inl ha
      by_cases hb : colLike q c.email = true
      · exact Or.inr (Or.inl hb)
      by_cases hc2 : colLike q c.phone = true
      · exact Or.inr (Or.inr (Or.inl hc2))
      rw [Bool.not_eq_true] at ha hb hc2
      rw [ha, hb, hc2] at hk
      simp only [Bool.false_or] at hk
      exact Or.inr (Or.inr (Or.inr ⟨r, ((hmem r).mp hr).1, ((hmem r).mp hr).2, hk⟩))
    · intro hk
      have hbase : ∀ r ∈ r0 :: rs, (colLike q (some c.name) = true ∨
          colLike q c.email = true ∨ colLike q c.phone = true ∨
          colLike q (some r.number) = true) →
          ∃ pr ∈ (r0 :: rs).map some, substrKeep q c pr = true := by
        intro r hr h
        refine ⟨some r, List.mem_map_of_mem some hr, ?_⟩
        unfold substrKeep
        rw [Option.map_some']
        simp only [Bool.or_eq_true]
        tauto
      rcases hk with h | h | h | ⟨r, hr, hc', hl⟩
      · exact hbase r0 (List.mem_cons_self r0 rs) (Or.inl h)
      · exact hbase r0 (List.mem_cons_self r0 rs) (Or.inr (Or.inl h))
      · exact hbase r0 (List.mem_cons_self r0 rs) (Or.inr (Or.inr (Or.inl h)))
      · exact hbase r ((hmem r).mpr ⟨hr, hc'⟩) (Or.inr (Or.inr (Or.inr hl)))

theorem qCount_pos_iff (s : Store) (q : Option String) (c : ContactRow) :
    0 < qCount s q c ↔
      (optTruthy q = true →
        (colLike (q.getD "") (some c.name) = true ∨ colLike (q.getD "") c.email = true ∨
          colLike (q.getD "") c.phone = true ∨
          ∃ r ∈ s.phones, r.contact_id = c.id ∧ colLike (q.getD "") (some r.number) = true)) := by
  unfold qCount
  by_cases h : optTruthy q = true
  · rw [if_pos h, ← List.countP_eq_length_filter, List.countP_pos_iff,
      rowsFor_exists_iff]
    constructor
    · intro hx _; exact hx
    · intro hx; exact hx h
  · rw [if_neg h]
    simp [h]

theorem tCount_pos_iff (s : Store) (tg : Option String) (c : ContactRow) :
    0 < tCount s tg c ↔
      (optTruthy tg = true →
        ∃ t ∈ tagsOf s c.id, tagNameMatches (tg.getD "") t = true) := by
  unfold tCount
  by_cases h : optTruthy tg = true
  · rw [if_pos h, ← List.countP_eq_length_filter, List.countP_pos_iff]
    constructor
    · intro hx _; exact hx
    · intro hx; exact hx h
  · rw [if_neg h]
    simp [h]

theorem mCount_pos_iff (s : Store) (q tg : Option String) (c : ContactRow) :
    0 < mCount s q tg c ↔ (0 < qCount s q c ∧ 0 < tCount s tg c) := by
  unfold mCount
  rw [Nat.pos_iff_ne_zero, Nat.pos_iff_ne_zero, Nat.pos_iff_ne_zero]
  rw [ne_eq, Nat.mul_eq_zero]
  tauto

theorem matchesSearchB_iff (s : Store) (q tg : Option String) (c : ContactRow) :
    matchesSearchB s q tg c = true ↔
      (0 < qCount s q c ∧ 0 < tCount s tg c) := by
  rw [qCount_pos_iff, tCount_pos_iff]
  unfold matchesSearchB
  cases hq : optTruthy q with
  | false =>
    cases ht : optTruthy tg with
    | false => simp [hq, ht]
    | true =>
      simp only [hq, ht, Bool.not_false, Bool.not_true, Bool.true_or,
        Bool.false_or, Bool.true_and, Bool.false_eq_true, false_implies,
        true_and, true_implies, List.any_eq_true]
  | true =>
    cases ht : optTruthy tg with
    | false =>
      simp only [hq, ht, Bool.not_true, Bool.not_false, Bool.false_or,
        Bool.or_true, Bool.and_true, Bool.false_eq_true, false_implies,
        and_true, forall_const, Bool.or_eq_true, List.any_eq_true,
        Bool.and_eq_true, beq_iff_eq]
      tauto
    | true =>
      simp only [hq, ht, Bool.not_true, Bool.false_or, Bool.and_eq_true,
        forall_const, Bool.or_eq_true, List.any_eq_true, beq_iff_eq]
      tauto


theorem search_distinct_eq (s : Store) (q tg : Option String)
    (hids : (s.contacts.map fun c => c.id).Nodup) :
    dedupAux [] (searchJoinT s tg (searchJoinQ s q)) =
      s.contacts.filter (matchesSearchB s q tg) := by
  rw [searchJoinT_eq, dedupAux_flatMap_replicate _ _ [] hids]
  refine List.filter_congr ?_
  intro c _
  have hcl : (([] : List Nat).contains c.id) = false := rfl
  rw [hcl]
  simp only [Bool.not_false, Bool.and_true]
  rw [Bool.eq_iff_iff, decide_eq_true_eq, mCount_pos_iff, matchesSearchB_iff]

/-! ## Inversion lemmas for the write operations -/

theorem commitStore_ok {s s' : Store} (h : commitStore s = .ok s') :
    s' = s ∧ storeOk s = true := by
  unfold commitStore at h
  by_cases hs : storeOk s = true
  · rw [if_pos hs] at h
    cases h
    exact ⟨rfl, hs⟩
  · rw [if_neg hs] at h
    cases h

theorem checkScalarPhone_ok {s : Store} {po : Option String}
    (h : checkScalarPhone s po = .ok ()) :
    ∀ p, po = some p → p ≠ "" → check_phone_number_exists s p none = false := by
  intro p hpo hp
  subst hpo
  simp only [checkScalarPhone] at h
  rw [if_neg (by simp [hp])] at h
  by_cases hc : check_phone_number_exists s p none = true
  · rw [if_pos hc] at h
    exact Except.noConfusion h
  · rw [Bool.not_eq_true] at hc
    exact hc

theorem mkPhoneRows_mem {cid : Nat} {ns : List String} :
    ∀ {start : Nat} {r : PhoneRow}, r ∈ mkPhoneRows start cid ns →
      r.contact_id = cid ∧ r.number ∈ ns := by
  induction ns with
  | nil => intro start r h; cases h
  | cons n rest ih =>
    intro start r h
    rw [mkPhoneRows] at h
    rcases List.mem_cons.mp h with h | h
    · subst h
      exact ⟨rfl, List.mem_cons_self n rest⟩
    · rcases ih h with ⟨h1, h2⟩
      exact ⟨h1, List.mem_cons_of_mem n h2⟩

theorem create_contact_ok {s : Store} {c : ContactCreate} {s' : Store}
    (h : create_contact s c = .ok s') :
    s' = buildCreate s c ∧ storeOk (buildCreate s c) = true ∧
      checkScalarPhone s c.phone = .ok () ∧
      (∀ v ∈ c.phone_numbers, check_phone_number_exists s v none = false) ∧
      (∀ v ∈ c.addresses, check_address_exists s v none = false) := by
  unfold create_contact at h
  cases h1 : checkScalarPhone s c.phone with
  | error e => rw [h1] at h; exact Except.noConfusion h
  | ok u =>
    cases u
    rw [h1] at h
    cases h2 : checkValues (check_phone_number_exists s) CrudError.phoneConflict
        none c.phone_numbers with
    | error e => rw [h2] at h; exact Except.noConfusion h
    | ok u =>
      cases u
      rw [h2] at h
      cases h3 : checkValues (check_address_exists s) CrudError.addressConflict
          none c.addresses with
      | error e => rw [h3] at h; exact Except.noConfusion h
      | ok u =>
        cases u
        rw [h3] at h
        rcases commitStore_ok h with ⟨rfl, hok⟩
        exact ⟨rfl, hok, rfl, (checkValues_ok_iff _ _ _ _).mp h2,
          (checkValues_ok_iff _ _ _ _).mp h3⟩

theorem nodup_append_singleton {α : Type} {l : List α} {x : α}
    (h : l.Nodup) (hx : x ∉ l) : (l ++ [x]).Nodup := by
  rw [List.nodup_append]
  refine ⟨h, List.nodup_singleton x, ?_⟩
  intro a ha hax
  rw [List.mem_singleton] at hax
  subst hax
  exact hx ha

theorem buildCreate_contacts (s : Store) (c : ContactCreate) :
    (buildCreate s c).contacts =
      s.contacts ++ [⟨s.nextContactId, c.name, c.email, c.phone, none⟩] := rfl

theorem buildCreate_phones (s : Store) (c : ContactCreate) :
    (buildCreate s c).phones =
      s.phones ++ mkPhoneRows s.nextPhoneId s.nextContactId c.phone_numbers := rfl

theorem buildCreate_nextContactId (s : Store) (c : ContactCreate) :
    (buildCreate s c).nextContactId = s.nextContactId + 1 := rfl

theorem create_preserves_inv {s : Store} {c : ContactCreate} {s' : Store}
    (hinv : StoreInv s) (h : create_contact s c = .ok s') : StoreInv s' := by
  obtain ⟨hok, hids, hidb, hnext, hscal, hcross⟩ := hinv
  rcases create_contact_ok h with ⟨rfl, hok', hsc, hpn, _⟩
  refine ⟨hok', ?_, ?_, ?_, ?_, ?_⟩
  · rw [buildCreate_contacts, List.map_append]
    refine nodup_append_singleton hids ?_
    intro hmem
    rw [List.mem_map] at hmem
    rcases hmem with ⟨x, hx, hxid⟩
    have hlt := (hidb x hx).2
    have hxid' : x.id = s.nextContactId := hxid
    omega
  · intro x hx
    rw [buildCreate_contacts] at hx
    rw [buildCreate_nextContactId]
    rcases List.mem_append.mp hx with hx | hx
    · exact ⟨(hidb x hx).1, by have := (hidb x hx).2; omega⟩
    · rw [List.mem_singleton] at hx
      subst hx
      exact ⟨show s.nextContactId ≠ 0 by omega,
        show s.nextContactId < s.nextContactId + 1 by omega⟩
  · rw [buildCreate_nextContactId]
    omega
  · intro p hp
    unfold scalarPhoneCount
    rw [buildCreate_contacts, List.countP_append]
    by_cases hcp : c.phone = some p
    · have hch := checkScalarPhone_ok hsc p hcp hp
      have hnone := (check_phone_false hp hch).1
      have hz : List.countP (fun x => x.phone == some p) s.contacts = 0 := by
        rw [List.countP_eq_zero]
        intro a ha
        simp only [beq_iff_eq]
        intro hap
        have hcontra := hnone a ha hap
        rw [exclKeep_none] at hcontra
        exact Bool.noConfusion hcontra
      rw [hz]
      simp [hcp]
    · have hz : List.countP (fun x => x.phone == some p)
          [(⟨s.nextContactId, c.name, c.email, c.phone, none⟩ : ContactRow)] = 0 := by
        simp [hcp]
      rw [hz]
      have := hscal p hp
      unfold scalarPhoneCount at this
      omega
  · intro p hp x hx hxp r hr hrp
    rw [buildCreate_contacts] at hx
    rw [buildCreate_phones] at hr
    rcases List.mem_append.mp hx with hx | hx
    · rcases List.mem_append.mp hr with hr | hr
      · exact hcross p hp x hx hxp r hr hrp
      · rcases mkPhoneRows_mem hr with ⟨hrc, hrn⟩
        rw [hrp] at hrn
        have hch := hpn p hrn
        have hcontra := (check_phone_false hp hch).1 x hx hxp
        rw [exclKeep_none] at hcontra
        exact Bool.noConfusion hcontra
    · rw [List.mem_singleton] at hx
      subst hx
      rcases List.mem_append.mp hr with hr | hr
      · have hch := checkScalarPhone_ok hsc p hxp hp
        have hcontra := (check_phone_false hp hch).2 r hr hrp
        rw [exclKeep_none] at hcontra
        exact Bool.noConfusion hcontra
      · exact (mkPhoneRows_mem hr).1

theorem update_contact_ok {s : Store} {cid : Nat} {u : ContactUpdate} {s' : Store}
    (h : update_contact s cid u = .ok (some s')) :
    ∃ c0 c2 phones' nextPhone' addrs' nextAddr',
      s.contacts.find? (fun c => c.id == cid) = some c0 ∧
      updScalar s cid
        { c0 with name := u.name.getD c0.name, email := applyEmail u.email c0.email }
        u.phone = .ok c2 ∧
      updPhones s cid u.phone_numbers = .ok (phones', nextPhone') ∧
      updAddrs s cid u.addresses = .ok (addrs', nextAddr') ∧
      s' = { contacts := s.contacts.map fun c => if c.id == cid then c2 else c,
             phones := phones', addrs := addrs',
             tags := (updTags s cid u.tags).1,
             assoc := (updTags s cid u.tags).2.1,
             nextContactId := s.nextContactId, nextPhoneId := nextPhone',
             nextAddrId := nextAddr', nextTagId := (updTags s cid u.tags).2.2 } ∧
      storeOk s' = true := by
  unfold update_contact at h
  cases hf : s.contacts.find? (fun c => c.id == cid) with
  | none =>
    simp only [hf] at h
    injection h with h2
    exact Option.noConfusion h2
  | some c0 =>
    simp only [hf] at h
    cases hs : updScalar s cid
        { c0 with name := u.name.getD c0.name, email := applyEmail u.email c0.email }
        u.phone with
    | error e => simp only [hs] at h; exact Except.noConfusion h
    | ok c2 =>
      simp only [hs] at h
      cases hp : updPhones s cid u.phone_numbers with
      | error e => simp only [hp] at h; exact Except.noConfusion h
      | ok pr =>
        rcases pr with ⟨phones', nextPhone'⟩
        simp only [hp] at h
        cases ha : updAddrs s cid u.addresses with
        | error e => simp only [ha] at h; exact Except.noConfusion h
        | ok ar =>
          rcases ar with ⟨addrs', nextAddr'⟩
          simp only [ha] at h
          cases hcm : commitStore
              { contacts := s.contacts.map fun c => if c.id == cid then c2 else c,
                phones := phones', addrs := addrs',
                tags := (updTags s cid u.tags).1,
                assoc := (updTags s cid u.tags).2.1,
                nextContactId := s.nextContactId, nextPhoneId := nextPhone',
                nextAddrId := nextAddr', nextTagId := (updTags s cid u.tags).2.2 } with
          | error e => simp only [hcm] at h; exact Except.noConfusion h
          | ok s2 =>
            simp only [hcm, Except.ok.injEq, Option.some.injEq] at h
            subst h
            rcases commitStore_ok hcm with ⟨rfl, hok⟩
            exact ⟨c0, c2, phones', nextPhone', addrs', nextAddr',
              rfl, hs, rfl, rfl, rfl, hok⟩

theorem updScalar_ok {s : Store} {cid : Nat} {c1 : ContactRow} {po : Option String}
    {c2 : ContactRow} (h : updScalar s cid c1 po = .ok c2) :
    (po = none ∧ c2 = c1) ∨
    (∃ p, po = some p ∧ check_phone_number_exists s p (some cid) = false ∧
      c2 = { c1 with phone := some p }) := by
  cases po with
  | none =>
    injection h with h2
    exact Or.inl ⟨rfl, h2.symm⟩
  | some p =>
    simp only [updScalar] at h
    by_cases hc : check_phone_number_exists s p (some cid) = true
    · rw [if_pos hc] at h
      exact Except.noConfusion h
    · rw [Bool.not_eq_true] at hc
      rw [if_neg (by rw [hc]; simp)] at h
      injection h with h2
      exact Or.inr ⟨p, rfl, hc, h2.symm⟩

theorem updPhones_ok {s : Store} {cid : Nat} {o : Option (List String)}
    {phones' : List PhoneRow} {np : Nat} (h : updPhones s cid o = .ok (phones', np)) :
    (o = none ∧ phones' = s.phones) ∨
    (∃ ns, o = some ns ∧
      (∀ v ∈ ns, check_phone_number_exists s v (some cid) = false) ∧
      phones' = (s.phones.filter fun r => !(r.contact_id == cid)) ++
        mkPhoneRows s.nextPhoneId cid ns) := by
  cases o with
  | none =>
    injection h with h2
    rw [Prod.mk.injEq] at h2
    exact Or.inl ⟨rfl, h2.1.symm⟩
  | some ns =>
    simp only [updPhones] at h
    cases hc : checkValues (check_phone_number_exists s) CrudError.phoneConflict
        (some cid) ns with
    | error e => rw [hc] at h; exact Except.noConfusion h
    | ok u =>
      cases u
      rw [hc] at h
      injection h with h2
      rw [Prod.mk.injEq] at h2
      exact Or.inr ⟨ns, rfl, (checkValues_ok_iff _ _ _ _).mp hc, h2.1.symm⟩

theorem check_false_some {s : Store} {p : String} {cid : Nat} (hcid : cid ≠ 0)
    (hp : p ≠ "") (h : check_phone_number_exists s p (some cid) = false) :
    (∀ c ∈ s.contacts, c.phone = some p → c.id = cid) ∧
    (∀ r ∈ s.phones, r.number = p → r.contact_id = cid) := by
  have h2 := check_phone_false hp h
  constructor
  · intro c hc hcp
    have hx := h2.1 c hc hcp
    rw [exclKeep_some_ne hcid] at hx
    simpa using hx
  · intro r hr hrp
    have hx := h2.2 r hr hrp
    rw [exclKeep_some_ne hcid] at hx
    simpa using hx

theorem ids_of_replace {l : List ContactRow} {c2 : ContactRow} {cid : Nat}
    (hc2 : c2.id = cid) :
    ((l.map fun c => if c.id == cid then c2 else c).map fun c => c.id) =
      l.map fun c => c.id := by
  rw [List.map_map]
  refine List.map_congr_left ?_
  intro x _
  by_cases hx : (x.id == cid) = true
  · simp only [Function.comp_apply, hx, ite_true]
    rw [hc2]
    exact (beq_iff_eq.mp hx).symm
  · simp only [Function.comp_apply, hx, Bool.false_eq_true, not_false_iff,
      ite_false]

theorem map_replace_decomp {l : List ContactRow} {c0 c2 : ContactRow} {cid : Nat}
    (hids : (l.map fun c => c.id).Nodup) (hmem : c0 ∈ l) (hc0 : c0.id = cid) :
    ∃ l1 l2, l = l1 ++ c0 :: l2 ∧ (∀ x, x ∈ l1 ∨ x ∈ l2 → x.id ≠ cid) ∧
      (l.map fun c => if c.id == cid then c2 else c) = l1 ++ c2 :: l2 := by
  rcases List.append_of_mem hmem with ⟨l1, l2, rfl⟩
  have hnid : cid ∉ (l1 ++ l2).map fun c => c.id := by
    rw [List.map_append, List.map_cons] at hids
    rw [List.nodup_middle, List.nodup_cons] at hids
    rw [← List.map_append] at hids
    rw [← hc0]
    exact hids.1
  have hne : ∀ x, x ∈ l1 ∨ x ∈ l2 → x.id ≠ cid := by
    intro x hx hxid
    have hxm : x ∈ l1 ++ l2 := List.mem_append.mpr hx
    exact hnid (hxid ▸ List.mem_map_of_mem (fun c => c.id) hxm)
  refine ⟨l1, l2, rfl, hne, ?_⟩
  rw [List.map_append, List.map_cons]
  have h1 : l1.map (fun c => if c.id == cid then c2 else c) = l1 := by
    have := List.map_congr_left (l := l1)
      (f := fun c => if c.id == cid then c2 else c) (g := fun c => c)
      (fun x hx => by
        show (if (x.id == cid) = true then c2 else x) = x
        rw [if_neg]
        intro hc
        exact hne x (Or.inl hx) (beq_iff_eq.mp hc))
    rw [this, List.map_id']
  have h2 : l2.map (fun c => if c.id == cid then c2 else c) = l2 := by
    have := List.map_congr_left (l := l2)
      (f := fun c => if c.id == cid then c2 else c) (g := fun c => c)
      (fun x hx => by
        show (if (x.id == cid) = true then c2 else x) = x
        rw [if_neg]
        intro hc
        exact hne x (Or.inr hx) (beq_iff_eq.mp hc))
    rw [this, List.map_id']
  rw [h1, h2, if_pos (by rw [hc0]; exact beq_self_eq_true cid)]

theorem update_preserves_inv {s : Store} {cid : Nat} {u : ContactUpdate} {s' : Store}
    (hinv : StoreInv s) (h : update_contact s cid u = .ok (some s')) : StoreInv s' := by
  obtain ⟨hok, hids, hidb, hnext, hscal, hcross⟩ := hinv
  rcases update_contact_ok h with
    ⟨c0, c2, phones', nextPhone', addrs', nextAddr', hf, hs, hp, ha, rfl, hok'⟩
  have hc0mem := List.mem_of_find?_eq_some hf
  have hc0id : c0.id = cid := by
    have hfind := List.find?_some hf
    simpa using hfind
  have hcid0 : cid ≠ 0 := hc0id ▸ (hidb c0 hc0mem).1
  have hc2id : c2.id = cid := by
    rcases updScalar_ok hs with ⟨_, rfl⟩ | ⟨p', _, _, rfl⟩
    · exact hc0id
    · exact hc0id
  rcases @map_replace_decomp s.contacts c0 c2 cid hids hc0mem hc0id with
    ⟨l1, l2, hdec, hne, hmap⟩
  refine ⟨hok', ?_, ?_, ?_, ?_, ?_⟩
  · show ((s.contacts.map fun c => if c.id == cid then c2 else c).map fun c => c.id).Nodup
    rw [ids_of_replace hc2id]
    exact hids
  · intro x hx
    have hx' : x ∈ s.contacts.map fun c => if c.id == cid then c2 else c := hx
    rcases List.mem_map.mp hx' with ⟨y, hy, heq⟩
    show x.id ≠ 0 ∧ x.id < s.nextContactId
    by_cases hyc : (y.id == cid) = true
    · rw [if_pos hyc] at heq
      subst heq
      rw [hc2id, ← hc0id]
      exact hidb c0 hc0mem
    · rw [if_neg hyc] at heq
      subst heq
      exact hidb y hy
  · exact hnext
  · intro p hp'
    show List.countP (fun c => c.phone == some p)
      (s.contacts.map fun c => if c.id == cid then c2 else c) ≤ 1
    rw [hmap, List.countP_append, List.countP_cons]
    have horig := hscal p hp'
    unfold scalarPhoneCount at horig
    rw [hdec, List.countP_append, List.countP_cons] at horig
    by_cases hc2p : c2.phone = some p
    · rw [if_pos (by simp [hc2p])]
      rcases updScalar_ok hs with ⟨_, rfl⟩ | ⟨p', hpo, hchk, rfl⟩
      · have hc0p : c0.phone = some p := hc2p
        rw [if_pos (by simp [hc0p])] at horig
        omega
      · have hpp : p' = p := by
          have : some p' = some p := hc2p
          injection this
        rw [hpp] at hchk
        have hfacts := (check_false_some hcid0 hp' hchk).1
        have hz1 : List.countP (fun c => c.phone == some p) l1 = 0 := by
          rw [List.countP_eq_zero]
          intro a ha
          simp only [beq_iff_eq]
          intro hap
          refine hne a (Or.inl ha) ?_
          refine hfacts a ?_ hap
          rw [hdec]
          exact List.mem_append.mpr (Or.inl ha)
        have hz2 : List.countP (fun c => c.phone == some p) l2 = 0 := by
          rw [List.countP_eq_zero]
          intro a ha
          simp only [beq_iff_eq]
          intro hap
          refine hne a (Or.inr ha) ?_
          refine hfacts a ?_ hap
          rw [hdec]
          exact List.mem_append.mpr (Or.inr (List.mem_cons_of_mem c0 ha))
        rw [hz1, hz2]
    · rw [if_neg (by simp [hc2p])]
      omega
  · intro p hp' x hx hxp r hr hrp
    have hxmem : x ∈ l1 ++ c2 :: l2 := by
      rw [← hmap]
      exact hx
    have hrm : r ∈ phones' := hr
    have holdcase : ∀ y, y ∈ s.contacts → y.id ≠ cid → y.phone = some p →
        r.contact_id = y.id := by
      intro y hyc hyne hyp
      rcases updPhones_ok hp with ⟨_, hphn⟩ | ⟨ns, hns, hchkns, hphn⟩
      · exact hcross p hp' y hyc hyp r (hphn ▸ hrm) hrp
      · rcases List.mem_append.mp (hphn ▸ hrm) with hkept | hnew
        · exact hcross p hp' y hyc hyp r (List.mem_filter.mp hkept).1 hrp
        · rcases mkPhoneRows_mem hnew with ⟨hrc, hrn⟩
          rw [hrp] at hrn
          have hyd := (check_false_some hcid0 hp' (hchkns p hrn)).1 y hyc hyp
          exact absurd hyd hyne
    rcases List.mem_append.mp hxmem with hx1 | hx2
    · refine holdcase x ?_ (hne x (Or.inl hx1)) hxp
      rw [hdec]
      exact List.mem_append.mpr (Or.inl hx1)
    · rcases List.mem_cons.mp hx2 with rfl | hx3
      · rw [hc2id]
        rcases updScalar_ok hs with ⟨hponone, rfl⟩ | ⟨p'', hpo, hchk, rfl⟩
        · have hc0p : c0.phone = some p := hxp
          rcases updPhones_ok hp with ⟨_, hphn⟩ | ⟨ns, hns, hchkns, hphn⟩
          · rw [← hc0id]
            exact hcross p hp' c0 hc0mem hc0p r (hphn ▸ hrm) hrp
          · rcases List.mem_append.mp (hphn ▸ hrm) with hkept | hnew
            · have hrc0 := hcross p hp' c0 hc0mem hc0p r (List.mem_filter.mp hkept).1 hrp
              rw [hrc0, hc0id]
            · exact (mkPhoneRows_mem hnew).1
        · have hx2' : some p'' = some p := hxp
          have hpp : p'' = p := by injection hx2'
          rw [hpp] at hchk
          have hrow := (check_false_some hcid0 hp' hchk).2
          rcases updPhones_ok hp with ⟨_, hphn⟩ | ⟨ns, hns, hchkns, hphn⟩
          · exact hrow r (hphn ▸ hrm) hrp
          · rcases List.mem_append.mp (hphn ▸ hrm) with hkept | hnew
            · exact hrow r (List.mem_filter.mp hkept).1 hrp
            · exact (mkPhoneRows_mem hnew).1
      · refine holdcase x ?_ (hne x (Or.inr hx3)) hxp
        rw [hdec]
        exact List.mem_append.mpr (Or.inr (List.mem_cons_of_mem c0 hx3))

theorem listNodup_filter_map {α β : Type} [BEq β] [LawfulBEq β] (f : α → β)
    (p : α → Bool) (l : List α) (h : listNodup (l.map f) = true) :
    listNodup (((l.filter p).map f)) = true := by
  rw [listNodup_iff] at h ⊢
  exact List.Nodup.sublist (List.Sublist.map f (List.filter_sublist l)) h

theorem listNodup_filter {α : Type} [BEq α] [LawfulBEq α]
    (p : α → Bool) (l : List α) (h : listNodup l = true) :
    listNodup (l.filter p) = true := by
  rw [listNodup_iff] at h ⊢
  exact List.Nodup.sublist (List.filter_sublist l) h

theorem delete_preserves_inv {s : Store} {cid : Nat} (hinv : StoreInv s) :
    StoreInv (delete_contact s cid).2 := by
  obtain ⟨hok, hids, hidb, hnext, hscal, hcross⟩ := hinv
  unfold delete_contact
  cases hf : s.contacts.find? (fun c => c.id == cid) with
  | none => exact ⟨hok, hids, hidb, hnext, hscal, hcross⟩
  | some c0 =>
    unfold storeOk at hok
    simp only [Bool.and_eq_true] at hok
    refine ⟨?_, ?_, ?_, hnext, ?_, ?_⟩
    · unfold storeOk
      simp only [Bool.and_eq_true]
      exact ⟨⟨⟨listNodup_filter_map _ _ _ hok.1.1.1, listNodup_filter_map _ _ _ hok.1.1.2⟩,
        hok.1.2⟩, listNodup_filter _ _ hok.2⟩
    · exact List.Nodup.sublist
        (List.Sublist.map (fun c => c.id) (List.filter_sublist s.contacts)) hids
    · intro x hx
      exact hidb x (List.mem_filter.mp hx).1
    · intro p hp
      exact Nat.le_trans
        (List.Sublist.countP_le _ (List.filter_sublist s.contacts)) (hscal p hp)
    · intro p hp x hx hxp r hr hrp
      exact hcross p hp x (List.mem_filter.mp hx).1 hxp r (List.mem_filter.mp hr).1 hrp

theorem emptyStore_inv : StoreInv emptyStore := by
  refine ⟨rfl, List.nodup_nil, ?_, Nat.le_refl 1, ?_, ?_⟩
  · intro c hc
    exact absurd hc (List.not_mem_nil c)
  · intro p _
    exact Nat.zero_le 1
  · intro p _ c hc
    exact absurd hc (List.not_mem_nil c)

theorem runOp_preserves_inv (s : Store) (op : Op) (hinv : StoreInv s) :
    StoreInv (runOp s op) := by
  cases op with
  | create c =>
    simp only [runOp]
    cases hc : create_contact s c with
    | ok s' => exact create_preserves_inv hinv hc
    | error e => exact hinv
  | update cid u =>
    simp only [runOp]
    cases hu : update_contact s cid u with
    | error e => exact hinv
    | ok o =>
      cases o with
      | none => exact hinv
      | some s' => exact update_preserves_inv hinv hu
  | delete cid => exact delete_preserves_inv hinv

theorem runOps_inv (ops : List Op) : StoreInv (runOps emptyStore ops) := by
  suffices h : ∀ s, StoreInv s → StoreInv (runOps s ops) from h emptyStore emptyStore_inv
  induction ops with
  | nil => intro s hs; exact hs
  | cons op rest ih =>
    intro s hs
    exact ih (runOp s op) (runOp_preserves_inv s op hs)

theorem checkScalarPhone_error {s : Store} {po : Option String} {e : CrudError}
    (h : checkScalarPhone s po = .error e) :
    ∃ p, po = some p ∧ check_phone_number_exists s p none = true ∧
      e = .phoneConflict p := by
  cases po with
  | none => exact Except.noConfusion h
  | some p =>
    simp only [checkScalarPhone] at h
    by_cases hp : (p == "") = true
    · rw [if_pos hp] at h
      exact Except.noConfusion h
    · rw [if_neg hp] at h
      by_cases hc : check_phone_number_exists s p none = true
      · rw [if_pos hc] at h
        injection h with h2
        exact ⟨p, rfl, hc, h2.symm⟩
      · rw [if_neg hc] at h
        exact Except.noConfusion h

theorem checkValues_error {chk : String → Option Nat → Bool} {mk : String → CrudError}
    {ex : Option Nat} {vs : List String} {e : CrudError}
    (h : checkValues chk mk ex vs = .error e) :
    ∃ v, chk v ex = true ∧ e = mk v := by
  induction vs with
  | nil => exact Except.noConfusion h
  | cons v rest ih =>
    simp only [checkValues] at h
    by_cases hv : chk v ex = true
    · rw [if_pos hv] at h
      injection h with h2
      exact ⟨v, hv, h2.symm⟩
    · rw [if_neg hv] at h
      exact ih h

theorem updScalar_error {s : Store} {cid : Nat} {c1 : ContactRow}
    {po : Option String} {e : CrudError} (h : updScalar s cid c1 po = .error e) :
    ∃ p, po = some p ∧ check_phone_number_exists s p (some cid) = true ∧
      e = .phoneConflict p := by
  cases po with
  | none => exact Except.noConfusion h
  | some p =>
    simp only [updScalar] at h
    by_cases hc : check_phone_number_exists s p (some cid) = true
    · rw [if_pos hc] at h
      injection h with h2
      exact ⟨p, rfl, hc, h2.symm⟩
    · rw [if_neg hc] at h
      exact Except.noConfusion h

theorem updPhones_error {s : Store} {cid : Nat} {o : Option (List String)}
    {e : CrudError} (h : updPhones s cid o = .error e) :
    ∃ v, check_phone_number_exists s v (some cid) = true ∧ e = .phoneConflict v := by
  cases o with
  | none => exact Except.noConfusion h
  | some ns =>
    simp only [updPhones] at h
    cases hc : checkValues (check_phone_number_exists s) CrudError.phoneConflict
        (some cid) ns with
    | error e' =>
      rw [hc] at h
      injection h with h2
      rcases checkValues_error hc with ⟨v, hv, rfl⟩
      exact ⟨v, hv, h2.symm⟩
    | ok u =>
      cases u
      rw [hc] at h
      exact Except.noConfusion h

theorem updAddrs_error {s : Store} {cid : Nat} {o : Option (List String)}
    {e : CrudError} (h : updAddrs s cid o = .error e) :
    ∃ v, check_address_exists s v (some cid) = true ∧ e = .addressConflict v := by
  cases o with
  | none => exact Except.noConfusion h
  | some xs =>
    simp only [updAddrs] at h
    cases hc : checkValues (check_address_exists s) CrudError.addressConflict
        (some cid) xs with
    | error e' =>
      rw [hc] at h
      injection h with h2
      rcases checkValues_error hc with ⟨v, hv, rfl⟩
      exact ⟨v, hv, h2.symm⟩
    | ok u =>
      cases u
      rw [hc] at h
      exact Except.noConfusion h

theorem updAddrs_ok_checks {s : Store} {cid : Nat} {xs : List String}
    {addrs' : List AddrRow} {na : Nat}
    (h : updAddrs s cid (some xs) = .ok (addrs', na)) :
    ∀ v ∈ xs, check_address_exists s v (some cid) = false := by
  simp only [updAddrs] at h
  cases hc : checkValues (check_address_exists s) CrudError.addressConflict
      (some cid) xs with
  | error e => rw [hc] at h; exact Except.noConfusion h
  | ok u =>
    cases u
    exact (checkValues_ok_iff _ _ _ _).mp hc

theorem procTags_newRows_mem {committed : List TagRow} {cid : Nat} {ns : List String} :
    ∀ {nid : Nat} {t : TagRow}, t ∈ (procTags committed nid cid ns).newRows →
      ∃ n, t.name = lowStr n := by
  induction ns with
  | nil => intro nid t h; exact absurd h (List.not_mem_nil t)
  | cons n rest ih =>
    intro nid t h
    simp only [procTags] at h
    cases hf : committed.find? (fun t => t.name == lowStr n) with
    | some t0 =>
      rw [hf] at h
      exact ih h
    | none =>
      rw [hf] at h
      rcases List.mem_cons.mp h with h | h
      · subst h
        exact ⟨n, rfl⟩
      · exact ih h

theorem procTags_newRows_nil {committed : List TagRow} {cid : Nat} {ns : List String}
    (hall : ∀ n ∈ ns, ∃ t ∈ committed, t.name = lowStr n) :
    ∀ {nid : Nat}, (procTags committed nid cid ns).newRows = [] := by
  induction ns with
  | nil => intro nid; rfl
  | cons n rest ih =>
    intro nid
    simp only [procTags]
    cases hf : committed.find? (fun t => t.name == lowStr n) with
    | some t0 => exact ih (fun m hm => hall m (List.mem_cons_of_mem n hm))
    | none =>
      rcases hall n (List.mem_cons_self n rest) with ⟨t, ht, htn⟩
      rw [List.find?_eq_none] at hf
      exact absurd (by simp [htn]) (hf t ht)

theorem buildCreate_tags (s : Store) (c : ContactCreate) :
    (buildCreate s c).tags =
      s.tags ++ (procTags s.tags s.nextTagId s.nextContactId c.tags).newRows := rfl

theorem tagsLowered_create {s : Store} {c : ContactCreate} {s' : Store}
    (hl : TagsLowered s) (h : create_contact s c = .ok s') : TagsLowered s' := by
  rcases create_contact_ok h with ⟨rfl, _, _, _, _⟩
  intro t ht
  rw [buildCreate_tags] at ht
  rcases List.mem_append.mp ht with h1 | h2
  · exact hl t h1
  · rcases procTags_newRows_mem h2 with ⟨n, hn⟩
    rw [hn, lowStr_idem]

theorem tagsLowered_update {s : Store} {cid : Nat} {u : ContactUpdate} {s' : Store}
    (hl : TagsLowered s) (h : update_contact s cid u = .ok (some s')) :
    TagsLowered s' := by
  rcases update_contact_ok h with ⟨c0, c2, ph, np, ad, na, hf, hs, hp, ha, rfl, _⟩
  intro t ht
  have ht' : t ∈ (updTags s cid u.tags).1 := ht
  cases hu : u.tags with
  | none =>
    rw [hu] at ht'
    simp only [updTags] at ht'
    exact hl t ht'
  | some tns =>
    rw [hu] at ht'
    simp only [updTags] at ht'
    rcases List.mem_append.mp ht' with h1 | h2
    · exact hl t h1
    · rcases procTags_newRows_mem h2 with ⟨n, hn⟩
      rw [hn, lowStr_idem]

theorem delete_tags (s : Store) (cid : Nat) :
    (delete_contact s cid).2.tags = s.tags := by
  unfold delete_contact
  cases hf : s.contacts.find? (fun c => c.id == cid) with
  | none => rfl
  | some c0 => rfl

theorem tagsLowered_runOp (s : Store) (op : Op) (hl : TagsLowered s) :
    TagsLowered (runOp s op) := by
  cases op with
  | create c =>
    simp only [runOp]
    cases hc : create_contact s c with
    | ok s' => exact tagsLowered_create hl hc
    | error e => exact hl
  | update cid u =>
    simp only [runOp]
    cases hu : update_contact s cid u with
    | error e => exact hl
    | ok o =>
      cases o with
      | none => exact hl
      | some s' => exact tagsLowered_update hl hu
  | delete cid =>
    simp only [runOp]
    rw [TagsLowered, delete_tags]
    exact hl

theorem tagsLowered_runOps (ops : List Op) : TagsLowered (runOps emptyStore ops) := by
  suffices h : ∀ s, TagsLowered s → TagsLowered (runOps s ops) from
    h emptyStore (fun t ht => absurd ht (List.not_mem_nil t))
  induction ops with
  | nil => intro s hs; exact hs
  | cons op rest ih =>
    intro s hs
    exact ih (runOp s op) (tagsLowered_runOp s op hs)

theorem countP_beq_le_one_of_nodup {α β : Type} [BEq β] [LawfulBEq β]
    (f : α → β) (l : List α) (h : (l.map f).Nodup) (b : β) :
    List.countP (fun x => f x == b) l ≤ 1 := by
  induction l with
  | nil => simp
  | cons a t ih =>
    rw [List.map_cons, List.nodup_cons] at h
    rw [List.countP_cons]
    by_cases hab : (f a == b) = true
    · have hz : List.countP (fun x => f x == b) t = 0 := by
        rw [List.countP_eq_zero]
        intro x hx hxb
        refine h.1 ?_
        rw [(eq_of_beq hab).trans (eq_of_beq hxb).symm]
        exact List.mem_map_of_mem f hx
      rw [hz]
      simp [hab]
    · rw [if_neg hab]
      have := ih h.2
      omega

theorem exclKeep_true_iff (ex : Option Nat) (cid : Nat) :
    exclKeep ex cid = true ↔ (∀ e, ex = some e → e ≠ 0 → cid ≠ e) := by
  cases ex with
  | none => simp [exclKeep]
  | some e =>
    by_cases he : e = 0
    · subst he
      simp [exclKeep]
    · simp [exclKeep, he]

/-! ## The claims -/

/-- C10: calling `check_phone_number_exists` or `check_address_exists` with
`exclude_contact_id = 0` behaves exactly as if no exclusion were given: the
filter is applied only for a truthy (non-zero) id, so rows of a contact with
id 0 are not excluded. -/
theorem c10_exclude_zero_noop (s : Store) (v : String) :
    check_phone_number_exists s v (some 0) = check_phone_number_exists s v none ∧
    check_address_exists s v (some 0) = check_address_exists s v none := by
  constructor
  · simp [check_phone_number_exists, exclKeep]
  · simp [check_address_exists, exclKeep]

/-- C4 counterexample: on a store whose single contact has id 0 and scalar
phone "5", the validator called with excludeContactId = 0 still reports the
value as existing, while the claim's reading ("rows belonging to
excludeContactId are excluded whenever excludeContactId is given") yields
false — so the claim as stated fails at this store. -/
theorem c4_counterexample :
    check_phone_number_exists
      { emptyStore with contacts := [⟨0, "Z", none, some "5", none⟩] }
      "5" (some 0) = true ∧
    checkPhoneSpecC4
      { emptyStore with contacts := [⟨0, "Z", none, some "5", none⟩] }
      "5" (some 0) = false := by
  exact ⟨rfl, rfl⟩

/-- C4 (amended): the validators return false for an empty candidate and
otherwise report exactly whether some contact's scalar field or some child
row equals the candidate, where rows of the supplied excludeContactId are
excluded only when that id is non-zero; the functions are pure reads (they
are functions of the store returning a Bool). -/
theorem c4_amended (s : Store) (v : String) (ex : Option Nat) :
    (check_phone_number_exists s v ex = true ↔
      v ≠ "" ∧
        ((∃ c ∈ s.contacts, c.phone = some v ∧
            (∀ e, ex = some e → e ≠ 0 → c.id ≠ e)) ∨
          (∃ r ∈ s.phones, r.number = v ∧
            (∀ e, ex = some e → e ≠ 0 → r.contact_id ≠ e)))) ∧
    (check_address_exists s v ex = true ↔
      v ≠ "" ∧
        ((∃ c ∈ s.contacts, c.address = some v ∧
            (∀ e, ex = some e → e ≠ 0 → c.id ≠ e)) ∨
          (∃ r ∈ s.addrs, r.address = v ∧
            (∀ e, ex = some e → e ≠ 0 → r.contact_id ≠ e)))) := by
  constructor
  · rw [check_phone_iff]
    constructor
    · rintro ⟨hv, h⟩
      refine ⟨hv, ?_⟩
      rcases h with ⟨c, hc, hcp, hk⟩ | ⟨r, hr, hrp, hk⟩
      · exact Or.inl ⟨c, hc, hcp, (exclKeep_true_iff ex c.id).mp hk⟩
      · exact Or.inr ⟨r, hr, hrp, (exclKeep_true_iff ex r.contact_id).mp hk⟩
    · rintro ⟨hv, h⟩
      refine ⟨hv, ?_⟩
      rcases h with ⟨c, hc, hcp, hk⟩ | ⟨r, hr, hrp, hk⟩
      · exact Or.inl ⟨c, hc, hcp, (exclKeep_true_iff ex c.id).mpr hk⟩
      · exact Or.inr ⟨r, hr, hrp, (exclKeep_true_iff ex r.contact_id).mpr hk⟩
  · rw [check_address_iff]
    constructor
    · rintro ⟨hv, h⟩
      refine ⟨hv, ?_⟩
      rcases h with ⟨c, hc, hcp, hk⟩ | ⟨r, hr, hrp, hk⟩
      · exact Or.inl ⟨c, hc, hcp, (exclKeep_true_iff ex c.id).mp hk⟩
      · exact Or.inr ⟨r, hr, hrp, (exclKeep_true_iff ex r.contact_id).mp hk⟩
    · rintro ⟨hv, h⟩
      refine ⟨hv, ?_⟩
      rcases h with ⟨c, hc, hcp, hk⟩ | ⟨r, hr, hrp, hk⟩
      · exact Or.inl ⟨c, hc, hcp, (exclKeep_true_iff ex c.id).mpr hk⟩
      · exact Or.inr ⟨r, hr, hrp, (exclKeep_true_iff ex r.contact_id).mpr hk⟩

/-- C1 counterexample: one successful create yields a contact holding
"1234567890" both as its scalar phone and as its own phone-number row, so
that value occurs twice across the store; and two successful creates with an
empty scalar phone yield two contacts whose scalar phones are both "". -/
theorem c1_counterexample :
    scalarPhoneCount
        (runOps emptyStore
          [.create { name := "A", phone := some "1234567890",
                     phone_numbers := ["1234567890"] }]) "1234567890" +
      phoneRowCount
        (runOps emptyStore
          [.create { name := "A", phone := some "1234567890",
                     phone_numbers := ["1234567890"] }]) "1234567890" = 2 ∧
    scalarPhoneCount
        (runOps emptyStore
          [.create { name := "E", phone := some "" },
           .create { name := "F", phone := some "" }]) "" = 2 := by
  exact ⟨rfl, rfl⟩

/-- C1 (amended): from the empty store, after every sequence of create,
update and delete calls, every non-empty phone value appears in at most one
phone-number row, is the scalar phone of at most one contact, and any
phone-number row equal to some contact's scalar phone belongs to that very
contact — so distinct contacts never share a non-empty value, while a single
contact may hold the same value both as its scalar phone and as one of its
own rows, and the empty string is exempt. -/
theorem c1_amended (ops : List Op) (P : String) (hP : P ≠ "") :
    phoneRowCount (runOps emptyStore ops) P ≤ 1 ∧
    scalarPhoneCount (runOps emptyStore ops) P ≤ 1 ∧
    (∀ c ∈ (runOps emptyStore ops).contacts, c.phone = some P →
      ∀ r ∈ (runOps emptyStore ops).phones, r.number = P → r.contact_id = c.id) := by
  obtain ⟨hok, hids, hidb, hnext, hscal, hcross⟩ := runOps_inv ops
  refine ⟨?_, hscal P hP, hcross P hP⟩
  unfold storeOk at hok
  simp only [Bool.and_eq_true] at hok
  have hnd : ((runOps emptyStore ops).phones.map fun r => r.number).Nodup :=
    (listNodup_iff _).mp hok.1.1.1
  exact countP_beq_le_one_of_nodup (fun r : PhoneRow => r.number) _ hnd P

/-- C1 witness: the amended invariant evaluated after one concrete create. -/
theorem c1_amended_witness :
    ("1234567890" ≠ "") ∧
    (phoneRowCount (runOps emptyStore
        [.create { name := "John Doe", phone := some "1234567890" }]) "1234567890" ≤ 1 ∧
      scalarPhoneCount (runOps emptyStore
        [.create { name := "John Doe", phone := some "1234567890" }]) "1234567890" ≤ 1 ∧
      (∀ c ∈ (runOps emptyStore
          [.create { name := "John Doe", phone := some "1234567890" }]).contacts,
        c.phone = some "1234567890" →
        ∀ r ∈ (runOps emptyStore
            [.create { name := "John Doe", phone := some "1234567890" }]).phones,
          r.number = "1234567890" → r.contact_id = c.id)) :=
  ⟨by decide, c1_amended [.create { name := "John Doe", phone := some "1234567890" }]
    "1234567890" (by decide)⟩

/-- C3: when the scalar phone, a listed phone-number entry, or a listed
address entry of a create request is already claimed in the store, create
fails with a conflict error that carries a conflicting value, and the
committed store is completely unchanged (no contact row, no child rows, no
tags). -/
theorem c3_create_conflict (s : Store) (c : ContactCreate)
    (hfail : (∃ p, c.phone = some p ∧ check_phone_number_exists s p none = true) ∨
             (∃ v ∈ c.phone_numbers, check_phone_number_exists s v none = true) ∨
             (∃ v ∈ c.addresses, check_address_exists s v none = true)) :
    (∃ v, (create_contact s c = .error (.phoneConflict v) ∧
            check_phone_number_exists s v none = true) ∨
          (create_contact s c = .error (.addressConflict v) ∧
            check_address_exists s v none = true)) ∧
    runOp s (.create c) = s := by
  have key : ∃ v, (create_contact s c = .error (.phoneConflict v) ∧
      check_phone_number_exists s v none = true) ∨
      (create_contact s c = .error (.addressConflict v) ∧
        check_address_exists s v none = true) := by
    cases h1 : checkScalarPhone s c.phone with
    | error e =>
      rcases checkScalarPhone_error h1 with ⟨p, hpo, hchk, rfl⟩
      refine ⟨p, Or.inl ⟨?_, hchk⟩⟩
      unfold create_contact
      rw [h1]
    | ok u =>
      cases u
      cases h2 : checkValues (check_phone_number_exists s) CrudError.phoneConflict
          none c.phone_numbers with
      | error e =>
        rcases checkValues_error h2 with ⟨v, hv, rfl⟩
        refine ⟨v, Or.inl ⟨?_, hv⟩⟩
        unfold create_contact
        rw [h1, h2]
      | ok u2 =>
        cases u2
        have hno1 : ¬ ∃ p, c.phone = some p ∧
            check_phone_number_exists s p none = true := by
          rintro ⟨p, hpo, hchk⟩
          have hpne : p ≠ "" := by
            intro hpe
            rw [hpe] at hchk
            have : check_phone_number_exists s "" none = false := rfl
            rw [this] at hchk
            exact Bool.noConfusion hchk
          have := checkScalarPhone_ok h1 p hpo hpne
          rw [this] at hchk
          exact Bool.noConfusion hchk
        have hno2 : ¬ ∃ v ∈ c.phone_numbers,
            check_phone_number_exists s v none = true := by
          rintro ⟨v, hv, hchk⟩
          have := (checkValues_ok_iff _ _ _ _).mp h2 v hv
          rw [this] at hchk
          exact Bool.noConfusion hchk
        rcases hfail with hf | hf | hf
        · exact absurd hf hno1
        · exact absurd hf hno2
        · rcases checkValues_error_of_mem (check_address_exists s)
            CrudError.addressConflict none c.addresses hf with ⟨w, hw, hwe⟩
          refine ⟨w, Or.inr ⟨?_, hw⟩⟩
          unfold create_contact
          rw [h1, h2, hwe]
  refine ⟨key, ?_⟩
  rcases key with ⟨v, ⟨herr, _⟩ | ⟨herr, _⟩⟩
  · simp only [runOp, herr]
  · simp only [runOp, herr]

/-- C3 witness: the spec's scenario — after creating John Doe with scalar
phone "1234567890", creating Jane whose phone-number list contains that value
fails with a conflict and the store still holds exactly one contact. -/
theorem c3_create_conflict_witness :
    ((∃ p, (some "1234567890" : Option String) = some p ∧
        check_phone_number_exists
          (runOps emptyStore [.create { name := "John Doe", phone := some "1234567890" }])
          p none = true) ∨
      (∃ v ∈ ["1234567890"],
        check_phone_number_exists
          (runOps emptyStore [.create { name := "John Doe", phone := some "1234567890" }])
          v none = true) ∨
      (∃ v ∈ ([] : List String),
        check_address_exists
          (runOps emptyStore [.create { name := "John Doe", phone := some "1234567890" }])
          v none = true)) ∧
    ((∃ v, (create_contact
          (runOps emptyStore [.create { name := "John Doe", phone := some "1234567890" }])
          { name := "Jane", phone_numbers := ["1234567890"] } =
            .error (.phoneConflict v) ∧
          check_phone_number_exists
            (runOps emptyStore [.create { name := "John Doe", phone := some "1234567890" }])
            v none = true) ∨
        (create_contact
          (runOps emptyStore [.create { name := "John Doe", phone := some "1234567890" }])
          { name := "Jane", phone_numbers := ["1234567890"] } =
            .error (.addressConflict v) ∧
          check_address_exists
            (runOps emptyStore [.create { name := "John Doe", phone := some "1234567890" }])
            v none = true)) ∧
      runOp (runOps emptyStore [.create { name := "John Doe", phone := some "1234567890" }])
        (.create { name := "Jane", phone_numbers := ["1234567890"] }) =
        runOps emptyStore [.create { name := "John Doe", phone := some "1234567890" }]) ∧
    (runOps emptyStore
      [.create { name := "John Doe", phone := some "1234567890" },
       .create { name := "Jane", phone_numbers := ["1234567890"] }]).contacts.length = 1 := by
  refine ⟨Or.inr (Or.inl ⟨"1234567890", by decide, by decide⟩), ?_, by decide⟩
  exact c3_create_conflict _ _ (Or.inr (Or.inl ⟨"1234567890", by decide, by decide⟩))

/-- C2: for an existing contact, if any uniqueness check of an update fails
(the supplied scalar phone, a supplied phone-number entry, or a supplied
address entry conflicts with another contact), the update returns a conflict
error carrying a conflicting value and the committed store is completely
unchanged — the target contact keeps its prior name, email, scalar phone,
child rows and tag associations because nothing is committed. -/
theorem c2_update_conflict (s : Store) (cid : Nat) (u : ContactUpdate)
    (c0 : ContactRow) (hfind : s.contacts.find? (fun c => c.id == cid) = some c0)
    (hfail : (∃ p, u.phone = some p ∧
                check_phone_number_exists s p (some cid) = true) ∨
             (∃ ns, u.phone_numbers = some ns ∧
                ∃ v ∈ ns, check_phone_number_exists s v (some cid) = true) ∨
             (∃ xs, u.addresses = some xs ∧
                ∃ v ∈ xs, check_address_exists s v (some cid) = true)) :
    (∃ v, (update_contact s cid u = .error (.phoneConflict v) ∧
            check_phone_number_exists s v (some cid) = true) ∨
          (update_contact s cid u = .error (.addressConflict v) ∧
            check_address_exists s v (some cid) = true)) ∧
    runOp s (.update cid u) = s := by
  have key : ∃ v, (update_contact s cid u = .error (.phoneConflict v) ∧
      check_phone_number_exists s v (some cid) = true) ∨
      (update_contact s cid u = .error (.addressConflict v) ∧
        check_address_exists s v (some cid) = true) := by
    cases hs : updScalar s cid
        { c0 with name := u.name.getD c0.name, email := applyEmail u.email c0.email }
        u.phone with
    | error e =>
      rcases updScalar_error hs with ⟨p, hpo, hchk, rfl⟩
      refine ⟨p, Or.inl ⟨?_, hchk⟩⟩
      unfold update_contact
      simp only [hfind, hs]
    | ok c2 =>
      have hno1 : ¬ ∃ p, u.phone = some p ∧
          check_phone_number_exists s p (some cid) = true := by
        rintro ⟨p, hpo, hchk⟩
        rcases updScalar_ok hs with ⟨hnone, _⟩ | ⟨p', hpo', hchk', _⟩
        · rw [hnone] at hpo
          exact Option.noConfusion hpo
        · rw [hpo'] at hpo
          injection hpo with hpp
          rw [← hpp] at hchk
          rw [hchk'] at hchk
          exact Bool.noConfusion hchk
      cases hp : updPhones s cid u.phone_numbers with
      | error e =>
        rcases updPhones_error hp with ⟨v, hv, rfl⟩
        refine ⟨v, Or.inl ⟨?_, hv⟩⟩
        unfold update_contact
        simp only [hfind, hs, hp]
      | ok pr =>
        rcases pr with ⟨phones', nextPhone'⟩
        have hno2 : ¬ ∃ ns, u.phone_numbers = some ns ∧
            ∃ v ∈ ns, check_phone_number_exists s v (some cid) = true := by
          rintro ⟨ns, hns, v, hv, hchk⟩
          rcases updPhones_ok hp with ⟨hnone, _⟩ | ⟨ns', hns', hchks, _⟩
          · rw [hnone] at hns
            exact Option.noConfusion hns
          · rw [hns'] at hns
            injection hns with hnn
            rw [← hnn] at hv
            have := hchks v hv
            rw [this] at hchk
            exact Bool.noConfusion hchk
        cases ha : updAddrs s cid u.addresses with
        | error e =>
          rcases updAddrs_error ha with ⟨v, hv, rfl⟩
          refine ⟨v, Or.inr ⟨?_, hv⟩⟩
          unfold update_contact
          simp only [hfind, hs, hp, ha]
        | ok ar =>
          rcases ar with ⟨addrs', nextAddr'⟩
          have hno3 : ¬ ∃ xs, u.addresses = some xs ∧
              ∃ v ∈ xs, check_address_exists s v (some cid) = true := by
            rintro ⟨xs, hxs, v, hv, hchk⟩
            rw [hxs] at ha
            have := updAddrs_ok_checks ha v hv
            rw [this] at hchk
            exact Bool.noConfusion hchk
          rcases hfail with hf | hf | hf
          · exact absurd hf hno1
          · exact absurd hf hno2
          · exact absurd hf hno3
  refine ⟨key, ?_⟩
  rcases key with ⟨v, ⟨herr, _⟩ | ⟨herr, _⟩⟩
  · simp only [runOp, herr]
  · simp only [runOp, herr]

/-- C2 witness: the spec's scenario — with John (phone "123") and Jane
(phone "987") in the store, updating Jane's scalar phone to "123" fails with
a conflict and the committed store, Jane's phone included, is unchanged. -/
theorem c2_update_conflict_witness :
    ((runOps emptyStore
        [.create { name := "John", phone := some "123" },
         .create { name := "Jane", phone := some "987" }]).contacts.find?
      (fun c => c.id == 2) = some ⟨2, "Jane", none, some "987", none⟩) ∧
    ((∃ p, (some "123" : Option String) = some p ∧
        check_phone_number_exists
          (runOps emptyStore
            [.create { name := "John", phone := some "123" },
             .create { name := "Jane", phone := some "987" }]) p (some 2) = true) ∨
      (∃ ns, (none : Option (List String)) = some ns ∧
        ∃ v ∈ ns, check_phone_number_exists
          (runOps emptyStore
            [.create { name := "John", phone := some "123" },
             .create { name := "Jane", phone := some "987" }]) v (some 2) = true) ∨
      (∃ xs, (none : Option (List String)) = some xs ∧
        ∃ v ∈ xs, check_address_exists
          (runOps emptyStore
            [.create { name := "John", phone := some "123" },
             .create { name := "Jane", phone := some "987" }]) v (some 2) = true)) ∧
    runOp (runOps emptyStore
        [.create { name := "John", phone := some "123" },
         .create { name := "Jane", phone := some "987" }])
      (.update 2 { phone := some "123" }) =
      runOps emptyStore
        [.create { name := "John", phone := some "123" },
         .create { name := "Jane", phone := some "987" }] := by
  refine ⟨by decide, Or.inl ⟨"123", rfl, by decide⟩, ?_⟩
  exact (c2_update_conflict _ 2 { phone := some "123" }
    ⟨2, "Jane", none, some "987", none⟩ (by decide)
    (Or.inl ⟨"123", rfl, by decide⟩)).2

/-- C9: delete of a missing id reports false and leaves the store unchanged;
delete of an existing contact reports true, removes exactly that contact row
with all of its phone-number and address rows and only its own tag
associations, and keeps every tag row, every other contact, their child rows
and their associations. -/
theorem c9_delete (s : Store) (cid : Nat) :
    ((∀ c ∈ s.contacts, c.id ≠ cid) → delete_contact s cid = (false, s)) ∧
    (∀ c0, c0 ∈ s.contacts → c0.id = cid →
      (delete_contact s cid).1 = true ∧
      (delete_contact s cid).2.tags = s.tags ∧
      (∀ c ∈ (delete_contact s cid).2.contacts, c.id ≠ cid ∧ c ∈ s.contacts) ∧
      (∀ c ∈ s.contacts, c.id ≠ cid → c ∈ (delete_contact s cid).2.contacts) ∧
      (∀ r ∈ (delete_contact s cid).2.phones, r.contact_id ≠ cid ∧ r ∈ s.phones) ∧
      (∀ r ∈ s.phones, r.contact_id ≠ cid → r ∈ (delete_contact s cid).2.phones) ∧
      (∀ r ∈ (delete_contact s cid).2.addrs, r.contact_id ≠ cid ∧ r ∈ s.addrs) ∧
      (∀ r ∈ s.addrs, r.contact_id ≠ cid → r ∈ (delete_contact s cid).2.addrs) ∧
      (∀ pr ∈ (delete_contact s cid).2.assoc, pr.1 ≠ cid ∧ pr ∈ s.assoc) ∧
      (∀ pr ∈ s.assoc, pr.1 ≠ cid → pr ∈ (delete_contact s cid).2.assoc)) := by
  constructor
  · intro hnone
    have hf : s.contacts.find? (fun c => c.id == cid) = none := by
      rw [List.find?_eq_none]
      intro x hx hxc
      exact hnone x hx (beq_iff_eq.mp hxc)
    unfold delete_contact
    rw [hf]
  · intro c0 hc0 hc0id
    have hf : ∃ c', s.contacts.find? (fun c => c.id == cid) = some c' := by
      cases hfc : s.contacts.find? (fun c => c.id == cid) with
      | some c' => exact ⟨c', rfl⟩
      | none =>
        rw [List.find?_eq_none] at hfc
        exact absurd (by simp [hc0id]) (hfc c0 hc0)
    rcases hf with ⟨c', hf⟩
    have hd : delete_contact s cid =
        (true,
          { s with
            contacts := s.contacts.filter fun c => !(c.id == cid),
            phones := s.phones.filter fun r => !(r.contact_id == cid),
            addrs := s.addrs.filter fun r => !(r.contact_id == cid),
            assoc := s.assoc.filter fun pr => !(pr.1 == cid) }) := by
      unfold delete_contact
      rw [hf]
    rw [hd]
    refine ⟨rfl, rfl, ?_, ?_, ?_, ?_, ?_, ?_, ?_, ?_⟩
    · intro c hc
      have := List.mem_filter.mp hc
      exact ⟨by simpa using this.2, this.1⟩
    · intro c hc hcne
      exact List.mem_filter.mpr ⟨hc, by simpa using hcne⟩
    · intro r hr
      have := List.mem_filter.mp hr
      exact ⟨by simpa using this.2, this.1⟩
    · intro r hr hrne
      exact List.mem_filter.mpr ⟨hr, by simpa using hrne⟩
    · intro r hr
      have := List.mem_filter.mp hr
      exact ⟨by simpa using this.2, this.1⟩
    · intro r hr hrne
      exact List.mem_filter.mpr ⟨hr, by simpa using hrne⟩
    · intro pr hpr
      have := List.mem_filter.mp hpr
      exact ⟨by simpa using this.2, this.1⟩
    · intro pr hpr hprne
      exact List.mem_filter.mpr ⟨hpr, by simpa using hprne⟩

/-- C9 witness: deleting the only contact of a one-contact store (tags are
kept), and deleting a missing id leaves the store unchanged. -/
theorem c9_delete_witness :
    ((⟨1, "A", none, none, none⟩ : ContactRow) ∈
      (runOps emptyStore [.create { name := "A", tags := ["friend"] }]).contacts) ∧
    (delete_contact (runOps emptyStore
      [.create { name := "A", tags := ["friend"] }]) 1).1 = true ∧
    (delete_contact (runOps emptyStore
      [.create { name := "A", tags := ["friend"] }]) 1).2.tags =
      (runOps emptyStore [.create { name := "A", tags := ["friend"] }]).tags ∧
    delete_contact (runOps emptyStore
      [.create { name := "A", tags := ["friend"] }]) 7 =
      (false, runOps emptyStore [.create { name := "A", tags := ["friend"] }]) := by
  have h := (c9_delete (runOps emptyStore [.create { name := "A", tags := ["friend"] }]) 1).2
    ⟨1, "A", none, none, none⟩ (by decide) (by decide)
  refine ⟨by decide, h.1, h.2.1, ?_⟩
  exact (c9_delete (runOps emptyStore [.create { name := "A", tags := ["friend"] }]) 7).1
    (by decide)

/-- C7 counterexample: "phone" is neither "name" nor "email", so the claim
says a list call with sortBy = "phone" falls back to ordering by name; but
`getattr(models.Contact, "phone")` is the phone column, and on a store where
the phone order differs from the name order the two result pages differ. -/
theorem c7_counterexample :
    (get_contacts (runOps emptyStore
      [.create { name := "A", phone := some "9" },
       .create { name := "B", phone := some "1" }]) 0 10 "phone" "asc").1 ≠
    (get_contacts (runOps emptyStore
      [.create { name := "A", phone := some "9" },
       .create { name := "B", phone := some "1" }]) 0 10 "name" "asc").1 := by
  decide

/-- C7 (amended): every list page is ordered by the resolved sort column in
the requested direction, where "name" and "email" resolve to themselves, the
other Contact columns "id", "phone" and "address" resolve to themselves as
well, and only a sortBy naming no Contact attribute falls back to "name"
(sortBy values naming non-column attributes of the Contact class, such as
relationship names or Python dunder attributes, make the real query raise
and are outside this model). -/
theorem c7_amended (s : Store) (skip limit : Nat) (sb so : String)
    (_hsb : sb ∉ ["phone_numbers", "addresses", "tags", "metadata", "registry"] ∧
      ['_', '_'].isPrefixOf sb.data = false) :
    ((get_contacts s skip limit sb so).1).Pairwise
      (fun a b => contactLe sb so a b = true) ∧
    (sb ∉ ["id", "name", "email", "phone", "address"] →
      resolveSortCol sb = SortCol.name) := by
  constructor
  · unfold get_contacts
    refine List.Pairwise.sublist ?_
      (pairwise_insSort _ (contactLe_total sb so)
        (fun a b c h1 h2 => contactLe_trans sb so h1 h2) s.contacts)
    exact (List.take_sublist _ _).trans (List.drop_sublist _ _)
  · intro hnot
    simp only [List.mem_cons, not_or, List.not_mem_nil] at hnot
    unfold resolveSortCol
    rw [if_neg (by simp [hnot.1]), if_neg (by simp [hnot.2.1]),
      if_neg (by simp [hnot.2.2.1]), if_neg (by simp [hnot.2.2.2.1]),
      if_neg (by simp [hnot.2.2.2.2.1])]

/-- C7 witness: the amended ordering statement at a concrete store and the
fallback at the unrecognized sort key "created_at". -/
theorem c7_amended_witness :
    (("created_at" : String) ∉
        ["phone_numbers", "addresses", "tags", "metadata", "registry"] ∧
      ['_', '_'].isPrefixOf ("created_at" : String).data = false) ∧
    ((get_contacts (runOps emptyStore
        [.create { name := "B" }, .create { name := "A" }]) 0 10 "created_at" "asc").1).Pairwise
      (fun a b => contactLe "created_at" "asc" a b = true) ∧
    (("created_at" : String) ∉ ["id", "name", "email", "phone", "address"] →
      resolveSortCol "created_at" = SortCol.name) := by
  have h := c7_amended (runOps emptyStore
    [.create { name := "B" }, .create { name := "A" }]) 0 10 "created_at" "asc"
    ⟨by decide, by decide⟩
  exact ⟨⟨by decide, by decide⟩, h.1, h.2⟩

theorem ceil_div_spec (t ps : Nat) (hps : 1 ≤ ps) :
    t ≤ ((t + ps - 1) / ps) * ps ∧ ((t + ps - 1) / ps) * ps < t + ps := by
  have hps0 : 0 < ps := hps
  constructor
  · by_cases ht : t = 0
    · subst ht
      exact Nat.zero_le _
    · have he : t + ps - 1 = (t - 1) + ps := by omega
      rw [he, Nat.add_div_right _ hps0]
      have h1 := Nat.div_add_mod (t - 1) ps
      have h2 := Nat.mod_lt (t - 1) hps0
      have h3 : ((t - 1) / ps + 1) * ps = ps * ((t - 1) / ps) + ps := by ring
      omega
  · have h1 := Nat.div_mul_le_self (t + ps - 1) ps
    omega

/-- C6: the list endpoint returns the slice of the sorted contact sequence
starting at zero-based offset (page-1)*page_size with at most page_size
elements, reports total as the size of the whole contact set, and reports
total_pages as the ceiling of total / page_size; the search endpoint obeys
the same contract over the sorted, de-duplicated, filtered sequence, with
total the number of matching contacts. -/
theorem c6_pagination (s : Store) (page page_size : Nat) (sb so : String)
    (q tg : Option String) (_hp : 1 ≤ page) (hps : 1 ≤ page_size)
    (hids : (s.contacts.map fun c => c.id).Nodup) :
    (list_contacts s page page_size sb so).contacts =
      ((insSort (contactLe sb so) s.contacts).drop ((page - 1) * page_size)).take
        page_size ∧
    (list_contacts s page page_size sb so).contacts.length ≤ page_size ∧
    (list_contacts s page page_size sb so).total = s.contacts.length ∧
    (list_contacts s page page_size sb so).total ≤
      (list_contacts s page page_size sb so).total_pages * page_size ∧
    (list_contacts s page page_size sb so).total_pages * page_size <
      (list_contacts s page page_size sb so).total + page_size ∧
    (search_endpoint s q tg page page_size sb so).contacts =
      ((search_all s q tg sb so).drop ((page - 1) * page_size)).take page_size ∧
    (search_endpoint s q tg page page_size sb so).contacts.length ≤ page_size ∧
    (search_endpoint s q tg page page_size sb so).total =
      s.contacts.countP (matchesSearchB s q tg) ∧
    (search_endpoint s q tg page page_size sb so).total ≤
      (search_endpoint s q tg page page_size sb so).total_pages * page_size ∧
    (search_endpoint s q tg page page_size sb so).total_pages * page_size <
      (search_endpoint s q tg page page_size sb so).total + page_size := by
  have hlist := ceil_div_spec s.contacts.length page_size hps
  have hstot : (search_endpoint s q tg page page_size sb so).total =
      s.contacts.countP (matchesSearchB s q tg) := by
    show (search_all s q tg sb so).length = _
    unfold search_all
    rw [length_insSort, search_distinct_eq s q tg hids,
      ← List.countP_eq_length_filter]
  have hsearch := ceil_div_spec (search_all s q tg sb so).length page_size hps
  refine ⟨rfl, ?_, rfl, hlist.1, hlist.2, rfl, ?_, hstot, hsearch.1, hsearch.2⟩
  · show (((insSort (contactLe sb so) s.contacts).drop
      ((page - 1) * page_size)).take page_size).length ≤ page_size
    rw [List.length_take]
    exact inf_le_left
  · show (((search_all s q tg sb so).drop
      ((page - 1) * page_size)).take page_size).length ≤ page_size
    rw [List.length_take]
    exact inf_le_left

/-- C6 witness: the spec's scenario — five contacts, page 1 of size 2
returns 2 contacts with total 5 and total_pages 3. -/
theorem c6_pagination_witness :
    (1 ≤ 1 ∧ 1 ≤ 2 ∧
      ((runOps emptyStore
        [.create { name := "Contact 0" }, .create { name := "Contact 1" },
         .create { name := "Contact 2" }, .create { name := "Contact 3" },
         .create { name := "Contact 4" }]).contacts.map fun c => c.id).Nodup) ∧
    (list_contacts (runOps emptyStore
      [.create { name := "Contact 0" }, .create { name := "Contact 1" },
       .create { name := "Contact 2" }, .create { name := "Contact 3" },
       .create { name := "Contact 4" }]) 1 2 "name" "asc").contacts.length = 2 ∧
    (list_contacts (runOps emptyStore
      [.create { name := "Contact 0" }, .create { name := "Contact 1" },
       .create { name := "Contact 2" }, .create { name := "Contact 3" },
       .create { name := "Contact 4" }]) 1 2 "name" "asc").total = 5 ∧
    (list_contacts (runOps emptyStore
      [.create { name := "Contact 0" }, .create { name := "Contact 1" },
       .create { name := "Contact 2" }, .create { name := "Contact 3" },
       .create { name := "Contact 4" }]) 1 2 "name" "asc").total_pages = 3 ∧
    (list_contacts (runOps emptyStore
      [.create { name := "Contact 0" }, .create { name := "Contact 1" },
       .create { name := "Contact 2" }, .create { name := "Contact 3" },
       .create { name := "Contact 4" }]) 1 2 "name" "asc").total ≤
      (list_contacts (runOps emptyStore
        [.create { name := "Contact 0" }, .create { name := "Contact 1" },
         .create { name := "Contact 2" }, .create { name := "Contact 3" },
         .create { name := "Contact 4" }]) 1 2 "name" "asc").total_pages * 2 := by
  refine ⟨⟨by decide, by decide, by decide⟩, by decide, by decide, by decide, ?_⟩
  exact (c6_pagination (runOps emptyStore
    [.create { name := "Contact 0" }, .create { name := "Contact 1" },
     .create { name := "Contact 2" }, .create { name := "Contact 3" },
     .create { name := "Contact 4" }]) 1 2 "name" "asc" none none
    (by decide) (by decide) (by decide)).2.2.2.1

/-- C5 counterexample: the search query is a SQL LIKE fragment, not a plain
substring — a contact named "axb" is returned for the query "a_b" (the `_`
wildcard matches `x`) although "axb" does not contain "a_b"; so the claim's
"case-insensitively contains" reading fails at this store. -/
theorem c5_counterexample :
    (search_all (runOps emptyStore [.create { name := "axb" }])
        (some "a_b") none "name" "asc").count ⟨1, "axb", none, none, none⟩ = 1 ∧
    containsSub "a_b" "axb" = false := by
  exact ⟨by decide, by decide⟩

/-- C5 (amended): a contact appears in the search result sequence exactly
once if and only if it is in the store and (when a non-empty query is given)
its name, email, scalar phone or one of its phone-number values LIKE-matches
`%query%` case-insensitively — `%` and `_` in the query act as SQL wildcards,
plain substring containment being the special case of a wildcard-free
query — and (when a non-empty tag is given) it has an associated tag whose
name equals the filter case-insensitively; otherwise it does not appear at
all. -/
theorem c5_search_membership (s : Store) (q tg : Option String) (sb so : String)
    (c : ContactRow) (hids : (s.contacts.map fun c => c.id).Nodup) :
    (search_all s q tg sb so).count c =
      if c ∈ s.contacts ∧ matchesSearchB s q tg c = true then 1 else 0 := by
  unfold search_all
  rw [count_insSort, search_distinct_eq s q tg hids]
  have hnodup : s.contacts.Nodup := List.Nodup.of_map _ hids
  by_cases hm : matchesSearchB s q tg c = true
  · rw [List.count_filter hm]
    by_cases hc : c ∈ s.contacts
    · rw [List.count_eq_one_of_mem hnodup hc, if_pos ⟨hc, hm⟩]
    · rw [List.count_eq_zero_of_not_mem hc, if_neg (by tauto)]
  · have hnot : c ∉ s.contacts.filter (matchesSearchB s q tg) := by
      intro hcf
      exact hm (List.mem_filter.mp hcf).2
    rw [List.count_eq_zero_of_not_mem hnot, if_neg (by tauto)]

/-- C5 witness: the spec's scenario — John Doe and Jane Smith in the store,
query "John": John's row appears exactly once, Jane's not at all. -/
theorem c5_search_membership_witness :
    (((runOps emptyStore
        [.create { name := "John Doe", email := some "john@x.com" },
         .create { name := "Jane Smith", email := some "jane@x.com" }]).contacts.map
      fun c => c.id).Nodup) ∧
    (search_all (runOps emptyStore
        [.create { name := "John Doe", email := some "john@x.com" },
         .create { name := "Jane Smith", email := some "jane@x.com" }])
      (some "John") none "name" "asc").count
        ⟨1, "John Doe", some "john@x.com", none, none⟩ =
      (if (⟨1, "John Doe", some "john@x.com", none, none⟩ : ContactRow) ∈
          (runOps emptyStore
            [.create { name := "John Doe", email := some "john@x.com" },
             .create { name := "Jane Smith", email := some "jane@x.com" }]).contacts ∧
          matchesSearchB (runOps emptyStore
            [.create { name := "John Doe", email := some "john@x.com" },
             .create { name := "Jane Smith", email := some "jane@x.com" }])
            (some "John") none ⟨1, "John Doe", some "john@x.com", none, none⟩ = true
        then 1 else 0) ∧
    (search_all (runOps emptyStore
        [.create { name := "John Doe", email := some "john@x.com" },
         .create { name := "Jane Smith", email := some "jane@x.com" }])
      (some "John") none "name" "asc").length = 1 := by
  refine ⟨by decide, ?_, by decide⟩
  exact c5_search_membership (runOps emptyStore
    [.create { name := "John Doe", email := some "john@x.com" },
     .create { name := "Jane Smith", email := some "jane@x.com" }])
    (some "John") none "name" "asc" ⟨1, "John Doe", some "john@x.com", none, none⟩
    (by decide)

/-- C8 counterexample: with `autoflush=False` the second lookup inside one
single create does not see the pending "friend" row, so create with the tag
list ["Friend", "friend"] stages two duplicate rows and fails at commit on
the tag-name unique constraint — instead of attaching one row, the whole
operation fails and zero tag rows are committed. -/
theorem c8_counterexample :
    create_contact emptyStore { name := "A", tags := ["Friend", "friend"] } =
      .error .constraintViolation ∧
    (runOps emptyStore
      [.create { name := "A", tags := ["Friend", "friend"] }]).tags.length = 0 := by
  exact ⟨rfl, rfl⟩

/-- C8 (amended): after every sequence of calls no two committed tag rows
have names equal up to case-folding (names are stored lower-cased and are
pairwise distinct), and a create whose tag names all case-insensitively
match existing tag rows attaches those rows without creating any new ones;
but two case-variants of a *new* name inside one single operation are not
deduplicated — the operation fails on the tag-name constraint. -/
theorem c8_amended :
    (∀ ops : List Op, ∀ t1 ∈ (runOps emptyStore ops).tags,
      ∀ t2 ∈ (runOps emptyStore ops).tags,
        lowStr t1.name = lowStr t2.name → t1 = t2) ∧
    (∀ (s : Store) (c : ContactCreate) (s' : Store), create_contact s c = .ok s' →
      (∀ n ∈ c.tags, ∃ t ∈ s.tags, t.name = lowStr n) → s'.tags = s.tags) := by
  constructor
  · intro ops t1 h1 t2 h2 heq
    have hlow := tagsLowered_runOps ops
    obtain ⟨hok, _, _, _, _, _⟩ := runOps_inv ops
    unfold storeOk at hok
    simp only [Bool.and_eq_true] at hok
    have hnames : ((runOps emptyStore ops).tags.map fun t => t.name).Nodup :=
      (listNodup_iff _).mp hok.1.2
    have hname : t1.name = t2.name := by
      rw [← hlow t1 h1, ← hlow t2 h2, heq]
    exact List.inj_on_of_nodup_map hnames h1 h2 hname
  · intro s c s' hcr hall
    rcases create_contact_ok hcr with ⟨rfl, _, _, _, _⟩
    rw [buildCreate_tags, procTags_newRows_nil hall, List.append_nil]

/-- C8 witness: creating "Friend" then "friend" in two successive operations
yields exactly one lower-cased tag row; a later create using the variant
"FRIEND" attaches the existing row, committing no new tag rows. -/
theorem c8_amended_witness :
    ((runOps emptyStore
      [.create { name := "A", tags := ["Friend"] },
       .create { name := "B", tags := ["friend"] }]).tags =
        [⟨1, "friend"⟩]) ∧
    (create_contact (runOps emptyStore [.create { name := "A", tags := ["friend"] }])
        { name := "B", tags := ["FRIEND"] } =
      .ok (runOps emptyStore
        [.create { name := "A", tags := ["friend"] },
         .create { name := "B", tags := ["FRIEND"] }])) ∧
    (∀ n ∈ ["FRIEND"],
      ∃ t ∈ (runOps emptyStore [.create { name := "A", tags := ["friend"] }]).tags,
        t.name = lowStr n) ∧
    (runOps emptyStore
      [.create { name := "A", tags := ["friend"] },
       .create { name := "B", tags := ["FRIEND"] }]).tags =
      (runOps emptyStore [.create { name := "A", tags := ["friend"] }]).tags := by
  refine ⟨by decide, by rfl, by decide, ?_⟩
  exact c8_amended.2 (runOps emptyStore [.create { name := "A", tags := ["friend"] }])
    { name := "B", tags := ["FRIEND"] }
    (runOps emptyStore
      [.create { name := "A", tags := ["friend"] },
       .create { name := "B", tags := ["FRIEND"] }])
    (by rfl) (by decide)
